import Mathlib

/-!
Shallow embedding of the OBDTracker telemetry ingestion and trip session
engine.

The model follows the in-memory storage backend (`MemStorage` in
`server/storage.ts`), the Express route handlers that sit on top of it
(`registerRoutes` in the routes module), and the OneStepGPS reconciler
(`server/onestepgps.ts`).

Modelling conventions:
- Opaque string identifiers (vehicle ids, trip ids, location ids, driver
  ids) are modelled as natural numbers; `randomUUID()` is modelled by a
  fresh-id counter `nextId` threaded through the state.
- `new Date()` timestamps are modelled by an arrival clock `now : Nat`
  that advances by one at the end of every server operation, so samples
  ingested by distinct requests carry strictly increasing timestamps.
- JavaScript `Map` objects are modelled as association lists with
  update-in-place semantics (`mapSet`): setting an existing key keeps its
  original position, setting a new key appends, exactly as `Map.set`
  interacts with `Map.values()` iteration order.
- Numeric fields are modelled as rationals. `calculateDistance` (the
  haversine formula over floating-point trigonometry) is not embeddable
  exactly, so the distance function is an explicit parameter `dist` of
  every operation that calls it; every theorem about distance
  accumulation is stated for an arbitrary `dist`, and concrete runs use
  the executable stand-in metric `demoDist`.
- WebSocket fanout is modelled by a log `broadcasts` of the messages the
  server passed to `broadcast`; API-key authentication is assumed to have
  succeeded (it touches only the `apiKeys` table, which no claim
  mentions).
-/

/-- A JSON scalar appearing in a request payload. String values carry an
opaque identifier, modelled by a natural number. -/
inductive JVal where
  | num (q : ℚ)
  | str (s : ℕ)
  | null
deriving DecidableEq, Repr

/-- Trip status column (`text("status")`); the code only ever writes
`"active"` (trip creation) and `"completed"` (trip completion); the
reserved value `"paused"` is never produced. -/
inductive TripStatus where
  | active
  | completed
deriving DecidableEq, Repr

/-- A `{ lat, lng }` coordinate pair as stored in `startCoords`,
`endCoords` and route points. -/
structure LatLng where
  lat : ℚ
  lng : ℚ
deriving DecidableEq, Repr

/-- One entry of a trip's `route` JSON array:
`{ lat, lng, timestamp }`. -/
structure RoutePoint where
  lat : ℚ
  lng : ℚ
  timestamp : ℕ
deriving DecidableEq, Repr

/-- A row of the `trips` table (`Trip` in the shared schema). -/
structure Trip where
  id : ℕ
  vehicleId : ℕ
  driverId : Option ℕ
  startLocation : String
  endLocation : Option String
  startCoords : LatLng
  endCoords : Option LatLng
  distance : ℚ
  duration : ℚ
  avgSpeed : ℚ
  maxSpeed : ℚ
  route : List RoutePoint
  startTime : ℕ
  endTime : Option ℕ
  status : TripStatus
deriving DecidableEq, Repr

/-- A row of the `vehicle_locations` table (`VehicleLocation`). -/
structure VehicleLocation where
  id : ℕ
  vehicleId : ℕ
  tripId : Option ℕ
  latitude : ℚ
  longitude : ℚ
  speed : ℚ
  heading : ℚ
  altitude : ℚ
  accuracy : ℚ
  timestamp : ℕ
deriving DecidableEq, Repr

/-- A row of the `obd_data` table (`ObdData`). -/
structure ObdData where
  id : ℕ
  vehicleId : ℕ
  tripId : Option ℕ
  rpm : ℚ
  speed : ℚ
  coolantTemp : ℚ
  batteryVoltage : ℚ
  throttlePosition : ℚ
  fuelLevel : ℚ
  engineLoad : ℚ
  timestamp : ℕ
deriving DecidableEq, Repr

/-- A row of the `vehicles` table (`Vehicle`). -/
structure Vehicle where
  id : ℕ
  name : String
  plate : String
  vin : String
  make : String
  model : String
  year : ℕ
  driverId : Option ℕ
  isActive : ℕ
deriving DecidableEq, Repr

/-- Result of a successful `insertVehicleLocationSchema.parse`: the typed
insert payload (`InsertVehicleLocation`). Fields with a column default
are optional-nullable in the generated zod schema. -/
structure InsertVehicleLocation where
  vehicleId : ℕ
  tripId : Option ℕ
  latitude : ℚ
  longitude : ℚ
  speed : Option ℚ
  heading : Option ℚ
  altitude : Option ℚ
  accuracy : Option ℚ
deriving DecidableEq, Repr

/-- Result of a successful `insertObdDataSchema.parse`
(`InsertObdData`). -/
structure InsertObdData where
  vehicleId : ℕ
  tripId : Option ℕ
  rpm : Option ℚ
  speed : Option ℚ
  coolantTemp : Option ℚ
  batteryVoltage : Option ℚ
  throttlePosition : Option ℚ
  fuelLevel : Option ℚ
  engineLoad : Option ℚ
deriving DecidableEq, Repr

/-- Raw JSON body of `POST /api/obd/location`; each field may be absent. -/
structure RawLocationBody where
  vehicleId : Option JVal
  tripId : Option JVal
  latitude : Option JVal
  longitude : Option JVal
  speed : Option JVal
  heading : Option JVal
  altitude : Option JVal
  accuracy : Option JVal
deriving DecidableEq, Repr

/-- Raw JSON body of `POST /api/obd/data`. -/
structure RawObdBody where
  vehicleId : Option JVal
  tripId : Option JVal
  rpm : Option JVal
  speed : Option JVal
  coolantTemp : Option JVal
  batteryVoltage : Option JVal
  throttlePosition : Option JVal
  fuelLevel : Option JVal
  engineLoad : Option JVal
deriving DecidableEq, Repr

/-- Zod check for a required string column (`varchar(...).notNull()`
without default): the value must be present and be a string; the error
carries the offending field name. -/
def reqStr (field : String) (v : Option JVal) : Except String ℕ :=
  match v with
  | some (.str s) => .ok s
  | _ => .error field

/-- Zod check for a required numeric column (`real(...).notNull()`
without default): the value must be present and be a number. No range is
checked — `createInsertSchema` only generates type-level validation. -/
def reqNum (field : String) (v : Option JVal) : Except String ℚ :=
  match v with
  | some (.num q) => .ok q
  | _ => .error field

/-- Zod check for an optional-nullable string column. -/
def optStr (field : String) (v : Option JVal) : Except String (Option ℕ) :=
  match v with
  | none => .ok none
  | some .null => .ok none
  | some (.str s) => .ok (some s)
  | some (.num _) => .error field

/-- Zod check for an optional-nullable numeric column. -/
def optNum (field : String) (v : Option JVal) : Except String (Option ℚ) :=
  match v with
  | none => .ok none
  | some .null => .ok none
  | some (.num q) => .ok (some q)
  | some (.str _) => .error field

/-- `insertVehicleLocationSchema.parse`: type/presence checks generated
by `createInsertSchema(vehicleLocations).omit({id, timestamp})`. There is
no `.refine`, so latitude/longitude are accepted as arbitrary numbers. -/
def parseInsertVehicleLocation (r : RawLocationBody) :
    Except String InsertVehicleLocation := do
  let vid ← reqStr "vehicleId" r.vehicleId
  let tid ← optStr "tripId" r.tripId
  let lat ← reqNum "latitude" r.latitude
  let lng ← reqNum "longitude" r.longitude
  let sp ← optNum "speed" r.speed
  let hdg ← optNum "heading" r.heading
  let alt ← optNum "altitude" r.altitude
  let acc ← optNum "accuracy" r.accuracy
  return ⟨vid, tid, lat, lng, sp, hdg, alt, acc⟩

/-- `insertObdDataSchema.parse`. -/
def parseInsertObdData (r : RawObdBody) : Except String InsertObdData := do
  let vid ← reqStr "vehicleId" r.vehicleId
  let tid ← optStr "tripId" r.tripId
  let rpm ← optNum "rpm" r.rpm
  let sp ← optNum "speed" r.speed
  let ct ← optNum "coolantTemp" r.coolantTemp
  let bv ← optNum "batteryVoltage" r.batteryVoltage
  let tp ← optNum "throttlePosition" r.throttlePosition
  let fl ← optNum "fuelLevel" r.fuelLevel
  let el ← optNum "engineLoad" r.engineLoad
  return ⟨vid, tid, rpm, sp, ct, bv, tp, fl, el⟩

/-- Key of the `vehicleLocations` / `obdData` maps in `MemStorage`:
either the `` `${vehicleId}-current` `` alias or a record's unique id. -/
inductive StoreKey where
  | current (vehicleId : ℕ)
  | byId (id : ℕ)
deriving DecidableEq, Repr

/-- JavaScript `Map.set`: overwriting an existing key keeps the key's
original position in iteration order; a new key is appended at the end. -/
def mapSet {α : Type} : List (StoreKey × α) → StoreKey → α → List (StoreKey × α)
  | [], k, v => [(k, v)]
  | (k', v') :: rest, k, v =>
      if k' = k then (k, v) :: rest else (k', v') :: mapSet rest k v

/-- JavaScript `Map.get`. -/
def mapGet {α : Type} : List (StoreKey × α) → StoreKey → Option α
  | [], _ => none
  | (k', v') :: rest, k => if k' = k then some v' else mapGet rest k

/-- `Array.from(map.values())` in iteration order. -/
def mapValues {α : Type} (l : List (StoreKey × α)) : List α :=
  l.map Prod.snd

/-- `Map.set(trip.id, trip)` on the `trips` map, keyed by the trip's own
`id` field: replace in place if the id is present, append otherwise. -/
def putTrip (t : Trip) : List Trip → List Trip
  | [] => [t]
  | u :: l => if u.id = t.id then t :: l else u :: putTrip t l

/-- The `LocationUpdate` WebSocket message. -/
structure LocationUpdateMsg where
  vehicleId : ℕ
  latitude : ℚ
  longitude : ℚ
  speed : ℚ
  heading : ℚ
  timestamp : ℕ
deriving DecidableEq, Repr

/-- The `ObdUpdate` WebSocket message. -/
structure ObdUpdateMsg where
  vehicleId : ℕ
  rpm : ℚ
  coolantTemp : ℚ
  batteryVoltage : ℚ
  throttlePosition : ℚ
  fuelLevel : ℚ
  engineLoad : ℚ
  timestamp : ℕ
deriving DecidableEq, Repr

/-- `WebSocketMessage`, the tagged union broadcast to every observer. -/
inductive WsMessage where
  | location (m : LocationUpdateMsg)
  | obd (m : ObdUpdateMsg)
deriving DecidableEq, Repr

/-- The server's full mutable state: the `MemStorage` maps, the ordered
log of broadcast messages, the fresh-id counter and the arrival clock. -/
structure ServerState where
  vehicles : List Vehicle
  trips : List Trip
  locs : List (StoreKey × VehicleLocation)
  obd : List (StoreKey × ObdData)
  broadcasts : List WsMessage
  nextId : ℕ
  now : ℕ
deriving DecidableEq, Repr

/-- A server state with no records at all. -/
def emptyState : ServerState :=
  ⟨[], [], [], [], [], 0, 0⟩

/-- `MemStorage.getTrip`. -/
def getTrip (id : ℕ) (trips : List Trip) : Option Trip :=
  trips.find? (fun t => decide (t.id = id))

/-- `MemStorage.getActiveTrip`: first trip (in map iteration order) for
the vehicle whose status is `active`. -/
def getActiveTrip (vehicleId : ℕ) (trips : List Trip) : Option Trip :=
  trips.find? (fun t => decide (t.vehicleId = vehicleId ∧ t.status = TripStatus.active))

/-- `MemStorage.getVehicleLocation`: the `` `${vehicleId}-current` ``
entry. -/
def getVehicleLocation (vehicleId : ℕ) (s : ServerState) : Option VehicleLocation :=
  mapGet s.locs (.current vehicleId)

/-- `MemStorage.getLatestObdData`. -/
def getLatestObdData (vehicleId : ℕ) (s : ServerState) : Option ObdData :=
  mapGet s.obd (.current vehicleId)

/-- Stable insertion of a location into a list sorted by ascending
timestamp; an element is placed before the first element it is `≤`, as a
stable JavaScript `sort((a, b) => a.timestamp - b.timestamp)` would. -/
def insertByTs (a : VehicleLocation) : List VehicleLocation → List VehicleLocation
  | [] => [a]
  | b :: l => if a.timestamp ≤ b.timestamp then a :: b :: l else b :: insertByTs a l

/-- Stable sort by ascending timestamp (JavaScript `Array.sort` is
stable). -/
def sortByTs : List VehicleLocation → List VehicleLocation
  | [] => []
  | a :: l => insertByTs a (sortByTs l)

/-- `MemStorage.getVehicleRoute`: filter every map entry (including the
`-current` alias) by trip id, then sort by timestamp ascending. -/
def getVehicleRoute (tripId : ℕ) (s : ServerState) : List VehicleLocation :=
  sortByTs ((mapValues s.locs).filter (fun l => decide (l.tripId = some tripId)))

/-- `MemStorage.createVehicleLocation`: apply the `?? 0` column defaults,
assign a fresh id and the arrival timestamp, then store the record twice:
under the `-current` alias for the vehicle and under its unique id. -/
def createVehicleLocation (ins : InsertVehicleLocation) (s : ServerState) :
    VehicleLocation × ServerState :=
  let loc : VehicleLocation :=
    { id := s.nextId
      vehicleId := ins.vehicleId
      tripId := ins.tripId
      latitude := ins.latitude
      longitude := ins.longitude
      speed := ins.speed.getD 0
      heading := ins.heading.getD 0
      altitude := ins.altitude.getD 0
      accuracy := ins.accuracy.getD 0
      timestamp := s.now }
  (loc,
    { s with
        locs := mapSet (mapSet s.locs (.current loc.vehicleId) loc) (.byId loc.id) loc
        nextId := s.nextId + 1 })

/-- `MemStorage.createObdData`: same double-keyed storage pattern as
locations (the code comment reads "Also store with unique ID for
history"). -/
def createObdData (ins : InsertObdData) (s : ServerState) : ObdData × ServerState :=
  let d : ObdData :=
    { id := s.nextId
      vehicleId := ins.vehicleId
      tripId := ins.tripId
      rpm := ins.rpm.getD 0
      speed := ins.speed.getD 0
      coolantTemp := ins.coolantTemp.getD 0
      batteryVoltage := ins.batteryVoltage.getD 0
      throttlePosition := ins.throttlePosition.getD 0
      fuelLevel := ins.fuelLevel.getD 0
      engineLoad := ins.engineLoad.getD 0
      timestamp := s.now }
  (d,
    { s with
        obd := mapSet (mapSet s.obd (.current d.vehicleId) d) (.byId d.id) d
        nextId := s.nextId + 1 })

/-- `MemStorage.completeTrip`: look the trip up by id only — the status
is not inspected — and overwrite `endLocation`, `endCoords`, `endTime`
and `status`. Returns `none` exactly when the id is absent. -/
def completeTrip (id : ℕ) (endLocation : String) (endCoords : LatLng)
    (s : ServerState) : Option (Trip × ServerState) :=
  match getTrip id s.trips with
  | none => none
  | some t =>
      let t' : Trip :=
        { t with
            endLocation := some endLocation
            endCoords := some endCoords
            endTime := some s.now
            status := .completed }
      some (t', { s with trips := putTrip t' s.trips })

/-- `POST /api/obd/location` (the direct device ingestion handler):
validate, store the location, extend the vehicle's active trip if one
exists (appending a route point, adding the incremental distance from the
previous route point — the very first route point contributes 0 — and
updating `maxSpeed` and the live `endCoords`), then broadcast a
`location` message. On a validation error nothing is mutated. The
`dist` parameter stands for `calculateDistance`. -/
def postObdLocation (dist : ℚ → ℚ → ℚ → ℚ → ℚ) (raw : RawLocationBody)
    (s : ServerState) : Except String (VehicleLocation × ServerState) :=
  match parseInsertVehicleLocation raw with
  | .error f => .error f
  | .ok ins =>
      let ls := createVehicleLocation ins s
      let loc := ls.1
      let s1 := ls.2
      let s2 :=
        match getActiveTrip loc.vehicleId s1.trips with
        | none => s1
        | some t =>
            let newPoint : RoutePoint := ⟨loc.latitude, loc.longitude, loc.timestamp⟩
            let additional : ℚ :=
              match t.route.getLast? with
              | none => 0
              | some p => dist p.lat p.lng loc.latitude loc.longitude
            { s1 with
                trips := putTrip
                  { t with
                      route := t.route ++ [newPoint]
                      distance := t.distance + additional
                      maxSpeed := max t.maxSpeed loc.speed
                      endCoords := some ⟨loc.latitude, loc.longitude⟩ }
                  s1.trips }
      let msg : LocationUpdateMsg :=
        ⟨loc.vehicleId, loc.latitude, loc.longitude, loc.speed, loc.heading, loc.timestamp⟩
      .ok (loc, { s2 with broadcasts := s2.broadcasts ++ [.location msg], now := s2.now + 1 })

/-- `POST /api/obd/data`: validate, store the diagnostic sample, and
broadcast an `obd` message. Trips are never consulted or modified. -/
def postObdData (raw : RawObdBody) (s : ServerState) :
    Except String (ObdData × ServerState) :=
  match parseInsertObdData raw with
  | .error f => .error f
  | .ok ins =>
      let ds := createObdData ins s
      let d := ds.1
      let s1 := ds.2
      let msg : ObdUpdateMsg :=
        ⟨d.vehicleId, d.rpm, d.coolantTemp, d.batteryVoltage, d.throttlePosition,
          d.fuelLevel, d.engineLoad, d.timestamp⟩
      .ok (d, { s1 with broadcasts := s1.broadcasts ++ [.obd msg], now := s1.now + 1 })

/-- `POST /api/trips` (start a trip): reject with a conflict error when
`getActiveTrip` finds an active session for the vehicle, otherwise create
a trip with empty route and zeroed aggregates via
`MemStorage.createTrip`. -/
def postTrips (vehicleId : ℕ) (driverId : Option ℕ) (startLocation : String)
    (startCoords : LatLng) (s : ServerState) : Except String (Trip × ServerState) :=
  match getActiveTrip vehicleId s.trips with
  | some _ => .error "Vehicle already has an active trip"
  | none =>
      let t : Trip :=
        { id := s.nextId
          vehicleId := vehicleId
          driverId := driverId
          startLocation := startLocation
          endLocation := none
          startCoords := startCoords
          endCoords := none
          distance := 0
          duration := 0
          avgSpeed := 0
          maxSpeed := 0
          route := []
          startTime := s.now
          endTime := none
          status := .active }
      .ok (t, { s with trips := putTrip t s.trips, nextId := s.nextId + 1, now := s.now + 1 })

/-- `POST /api/trips/:id/complete`: delegate to
`MemStorage.completeTrip`, returning 404 when it yields nothing. -/
def postCompleteTrip (tripId : ℕ) (endLocation : String) (endCoords : LatLng)
    (s : ServerState) : Except String (Trip × ServerState) :=
  match completeTrip tripId endLocation endCoords s with
  | none => .error "Trip not found"
  | some ts => .ok (ts.1, { ts.2 with now := ts.2.now + 1 })

/-- One device record of the OneStepGPS `result_list`. `dtTracker` is
`none` when the `dt_tracker` string is empty or missing (falsy in the
source's `device.dt_tracker || new Date().toISOString()`); the `vin`
inside `params` is `none` when absent or empty. -/
structure GpsDevice where
  deviceId : String
  displayName : String
  activeState : String
  dtTracker : Option ℕ
  lat : ℚ
  lng : ℚ
  angle : ℚ
  speed : ℚ
  vin : Option String
deriving DecidableEq, Repr

/-- Per-device body of `OneStepGPSService.syncDevicesToVehicles`: resolve
the vehicle by `plate = device_id` (creating it if missing), and — only
when both coordinates are truthy, i.e. nonzero — store a location sample
and, if an active trip exists, append a route point stamped with the
device-reported `dt_tracker` time and update `maxSpeed` and `endCoords`.
Note what is absent compared with `postObdLocation`: the trip's
`distance` is not incremented, and nothing is broadcast. The year of a
created vehicle (`new Date().getFullYear()`) is modelled by a fixed
constant, which no claim depends on.

`mkSyncVehicle` is the vehicle record `storage.createVehicle` builds from
a OneStepGPS device; `m` is the fresh id the store assigns. -/
def mkSyncVehicle (d : GpsDevice) (m : ℕ) : Vehicle :=
  { id := m
    name := if d.displayName = "" then "Vehicle " ++ d.deviceId else d.displayName
    plate := d.deviceId
    vin := d.vin.getD ("ONESTEP-" ++ d.deviceId)
    make := "OneStepGPS"
    model := "Tracked Device"
    year := 2025
    driverId := none
    isActive := if d.activeState = "active" then 1 else 0 }

def syncDevice (d : GpsDevice) (s : ServerState) : ServerState :=
  let vs : Vehicle × ServerState :=
    match s.vehicles.find? (fun v => decide (v.plate = d.deviceId)) with
    | some v => (v, s)
    | none =>
        let v : Vehicle := mkSyncVehicle d s.nextId
        (v, { s with vehicles := s.vehicles ++ [v], nextId := s.nextId + 1 })
  let vehicle := vs.1
  let s1 := vs.2
  if d.lat ≠ 0 ∧ d.lng ≠ 0 then
    let ins : InsertVehicleLocation :=
      { vehicleId := vehicle.id
        tripId := none
        latitude := d.lat
        longitude := d.lng
        speed := some d.speed
        heading := some d.angle
        altitude := some 0
        accuracy := some 5 }
    let ls := createVehicleLocation ins s1
    let s2 := ls.2
    let s3 :=
      match getActiveTrip vehicle.id s2.trips with
      | none => s2
      | some t =>
          let newPoint : RoutePoint := ⟨d.lat, d.lng, d.dtTracker.getD s2.now⟩
          { s2 with
              trips := putTrip
                { t with
                    route := t.route ++ [newPoint]
                    maxSpeed := max t.maxSpeed d.speed
                    endCoords := some ⟨d.lat, d.lng⟩ }
                s2.trips }
    { s3 with now := s3.now + 1 }
  else { s1 with now := s1.now + 1 }

/-- `syncDevicesToVehicles` over a fetched device list. -/
def syncDevices (devices : List GpsDevice) (s : ServerState) : ServerState :=
  devices.foldl (fun st d => syncDevice d st) s

/-- One externally observable server operation. -/
inductive Op where
  | ingestLoc (raw : RawLocationBody)
  | ingestObd (raw : RawObdBody)
  | startTrip (vehicleId : ℕ) (driverId : Option ℕ) (startLocation : String) (startCoords : LatLng)
  | finishTrip (tripId : ℕ) (endLocation : String) (endCoords : LatLng)
  | syncOp (d : GpsDevice)
deriving Repr

/-- State transition of one operation; an operation that responds with an
error leaves the state unchanged (each handler mutates nothing before its
early-exit). -/
def applyOp (dist : ℚ → ℚ → ℚ → ℚ → ℚ) (op : Op) (s : ServerState) : ServerState :=
  match op with
  | .ingestLoc raw =>
      match postObdLocation dist raw s with
      | .ok r => r.2
      | .error _ => s
  | .ingestObd raw =>
      match postObdData raw s with
      | .ok r => r.2
      | .error _ => s
  | .startTrip v dId sl sc =>
      match postTrips v dId sl sc s with
      | .ok r => r.2
      | .error _ => s
  | .finishTrip id el ec =>
      match postCompleteTrip id el ec s with
      | .ok r => r.2
      | .error _ => s
  | .syncOp d => syncDevice d s

/-- Run a sequence of operations in arrival order. -/
def runOps (dist : ℚ → ℚ → ℚ → ℚ → ℚ) (ops : List Op) (s : ServerState) : ServerState :=
  ops.foldl (fun st op => applyOp dist op st) s

/-- Executable stand-in metric used to instantiate the abstract
`calculateDistance` parameter in concrete runs (the source's haversine
uses floating-point trigonometry, which has no exact rational form). It
is nonnegative and vanishes on identical points, like the haversine. -/
def demoDist (lat1 lng1 lat2 lng2 : ℚ) : ℚ :=
  |lat2 - lat1| + |lng2 - lng1|

/-- Sum of `dist` over consecutive points of a route, in order; the
first point contributes 0. -/
def routeSum (dist : ℚ → ℚ → ℚ → ℚ → ℚ) : List RoutePoint → ℚ
  | [] => 0
  | [_] => 0
  | a :: b :: rest => dist a.lat a.lng b.lat b.lng + routeSum dist (b :: rest)

/-- A store key refers only to ids already issued by the fresh-id
counter. -/
def keyFresh (k : StoreKey) (m : ℕ) : Bool :=
  match k with
  | .current _ => true
  | .byId n => decide (n < m)

/-- Well-formedness of a server state: every stored id was produced by
the fresh-id counter (so it is below `nextId`), and trip ids are
pairwise distinct. Every state the server actually reaches satisfies
this (ids come from `randomUUID()`); it is preserved by `applyOp`. -/
def WFState (s : ServerState) : Prop :=
  (∀ t ∈ s.trips, t.id < s.nextId) ∧
  (s.trips.map Trip.id).Nodup ∧
  (∀ kv ∈ s.locs, keyFresh kv.1 s.nextId = true) ∧
  (∀ kv ∈ s.obd, keyFresh kv.1 s.nextId = true) ∧
  (∀ v ∈ s.vehicles, v.id < s.nextId)

/-- Number of active trips a vehicle has in a state. -/
def activeCount (v : ℕ) (trips : List Trip) : ℕ :=
  trips.countP (fun t => decide (t.vehicleId = v ∧ t.status = TripStatus.active))

/-- Scenario A sample payload (`{vehicleId: v1, latitude: 40.7580,
longitude: -73.9855, speed: 40}`; vehicle `v1` is modelled by id 7). -/
def rawScenarioA : RawLocationBody :=
  ⟨some (.str 7), none, some (.num (40758/1000)), some (.num (-739855/10000)),
    some (.num 40), none, none, none⟩

/-- Scenario A: `startTrip(v1, d1, "A St", {40.7485,-73.9883})` followed
by one `ingestLocation`, from an empty server. -/
def scenarioA (dist : ℚ → ℚ → ℚ → ℚ → ℚ) : ServerState :=
  runOps dist
    [.startTrip 7 (some 3) "A St" ⟨407485/10000, -739883/10000⟩, .ingestLoc rawScenarioA]
    emptyState

/-- Scenario B payload: well-typed but `latitude: 200`. -/
def rawBadLatitude : RawLocationBody :=
  ⟨some (.str 7), none, some (.num 200), some (.num (-739883/10000)),
    some (.num 10), none, none, none⟩

/-- Scenario D setup: a trip is started (id 0) and then completed once. -/
def scenarioD : ServerState :=
  runOps demoDist
    [.startTrip 5 none "Start St" ⟨1, 2⟩, .finishTrip 0 "End One" ⟨3, 4⟩]
    emptyState

/-- Scenario D probe: completing the already-completed trip 0 a second
time with different end data. -/
def scenarioDAgain : ServerState :=
  applyOp demoDist (.finishTrip 0 "End Two" ⟨5, 6⟩) scenarioD

/-- Round-trip scenario payloads: two samples carrying `tripId` 0 for the
same vehicle. -/
def rawRoute1 : RawLocationBody :=
  ⟨some (.str 5), some (.str 0), some (.num 10), some (.num 20), none, none, none, none⟩

/-- Second round-trip sample. -/
def rawRoute2 : RawLocationBody :=
  ⟨some (.str 5), some (.str 0), some (.num 11), some (.num 21), none, none, none, none⟩

/-- Round-trip scenario: start trip 0 for vehicle 5, then ingest the two
samples in order. -/
def scenarioRoute : ServerState :=
  runOps demoDist
    [.startTrip 5 none "Start St" ⟨10, 20⟩, .ingestLoc rawRoute1, .ingestLoc rawRoute2]
    emptyState

/-- First diagnostic payload (rpm 1000). -/
def rawDiag1 : RawObdBody :=
  ⟨some (.str 5), none, some (.num 1000), none, none, none, none, none, none⟩

/-- Second diagnostic payload (rpm 2000). -/
def rawDiag2 : RawObdBody :=
  ⟨some (.str 5), none, some (.num 2000), none, none, none, none, none, none⟩

/-- Diagnostic scenario: two `POST /api/obd/data` calls from an empty
server. -/
def scenarioDiag : ServerState :=
  runOps demoDist [.ingestObd rawDiag1, .ingestObd rawDiag2] emptyState

/-- A vehicle whose plate matches the reconciler device used in the
mixed-path scenarios. -/
def vehicleOne : Vehicle :=
  ⟨7, "Truck One", "DEV1", "VIN1", "MakeA", "ModelB", 2020, none, 1⟩

/-- Base state for the mixed-path scenarios: one administered vehicle,
fresh-id counter past its id. -/
def mixedBase : ServerState :=
  { emptyState with vehicles := [vehicleOne], nextId := 8 }

/-- Direct sample at (1, 1), speed 20, for vehicle 7. -/
def rawMixed1 : RawLocationBody :=
  ⟨some (.str 7), none, some (.num 1), some (.num 1), some (.num 20), none, none, none⟩

/-- Reconciler device record for plate DEV1 at (2, 2), speed 30. -/
def deviceOne : GpsDevice :=
  ⟨"DEV1", "Truck One", "active", some 99, 2, 2, 0, 30, none⟩

/-- Mixed-path scenario: start a trip for vehicle 7, ingest one direct
sample, then let the reconciler sync `deviceOne`. -/
def scenarioMixed : ServerState :=
  runOps demoDist [.startTrip 7 none "S" ⟨1, 1⟩, .ingestLoc rawMixed1, .syncOp deviceOne]
    mixedBase

/-- State just before the reconciler step of the mixed scenario. -/
def scenarioMixedPre : ServerState :=
  runOps demoDist [.startTrip 7 none "S" ⟨1, 1⟩, .ingestLoc rawMixed1] mixedBase

/-- The direct-endpoint payload corresponding to a reconciler device
record: same vehicle, same coordinates, same speed/heading, and the
constants (altitude 0, accuracy 5) the reconciler hard-codes. -/
def rawOfDevice (d : GpsDevice) (vid : ℕ) : RawLocationBody :=
  ⟨some (.str vid), none, some (.num d.lat), some (.num d.lng),
    some (.num d.speed), some (.num d.angle), some (.num 0), some (.num 5)⟩

/-- The distance bookkeeping invariant: every stored trip's `distance`
equals the sum of `dist` over consecutive points of its `route`. -/
def DistInv (dist : ℚ → ℚ → ℚ → ℚ → ℚ) (s : ServerState) : Prop :=
  ∀ t ∈ s.trips, t.distance = routeSum dist t.route

/-- Cons equation for `getTrip`. -/
theorem getTrip_cons {u : Trip} {l : List Trip} {id : ℕ} :
    getTrip id (u :: l) = if u.id = id then some u else getTrip id l := by
  by_cases h : u.id = id
  · simp [getTrip, List.find?, h]
  · simp [getTrip, List.find?, h]

/-- Cons equation for `getActiveTrip`. -/
theorem getActiveTrip_cons {u : Trip} {l : List Trip} {v : ℕ} :
    getActiveTrip v (u :: l) =
      if u.vehicleId = v ∧ u.status = TripStatus.active then some u
      else getActiveTrip v l := by
  by_cases h : u.vehicleId = v ∧ u.status = TripStatus.active
  · simp [getActiveTrip, List.find?, h]
  · simp only [getActiveTrip, List.find?, decide_eq_true_eq]
    rw [if_neg h, decide_eq_false h]

/-- A trip whose id is fresh for the list is appended by `putTrip`. -/
theorem putTrip_append {t : Trip} {l : List Trip}
    (h : ∀ u ∈ l, u.id ≠ t.id) : putTrip t l = l ++ [t] := by
  induction l with
  | nil => rfl
  | cons u l ih =>
      have hu : u.id ≠ t.id := h u (List.mem_cons_self u l)
      simp [putTrip, hu, ih fun v hv => h v (List.mem_cons_of_mem u hv)]

/-- Every element of `putTrip t l` comes from `l` or is `t`. -/
theorem mem_putTrip {u t : Trip} {l : List Trip}
    (h : u ∈ putTrip t l) : u ∈ l ∨ u = t := by
  induction l with
  | nil => simp [putTrip] at h; exact Or.inr h
  | cons v l ih =>
      by_cases hv : v.id = t.id
      · simp [putTrip, hv] at h
        rcases h with h | h
        · exact Or.inr h
        · exact Or.inl (List.mem_cons_of_mem v h)
      · simp only [putTrip, if_neg hv] at h
        rcases List.mem_cons.mp h with h | h
        · exact Or.inl (by simp [h])
        · rcases ih h with h' | h'
          · exact Or.inl (List.mem_cons_of_mem v h')
          · exact Or.inr h'

/-- Looking up the stored trip's own id after `putTrip` yields it. -/
theorem getTrip_putTrip_self (t : Trip) (l : List Trip) :
    getTrip t.id (putTrip t l) = some t := by
  induction l with
  | nil => simp [putTrip, getTrip_cons]
  | cons u l ih =>
      by_cases hu : u.id = t.id
      · simp [putTrip, hu, getTrip_cons]
      · simp only [putTrip, if_neg hu, getTrip_cons]
        exact ih

/-- `putTrip` does not disturb lookups of other ids. -/
theorem getTrip_putTrip_ne {t : Trip} {id : ℕ} (h : t.id ≠ id) (l : List Trip) :
    getTrip id (putTrip t l) = getTrip id l := by
  induction l with
  | nil =>
      show getTrip id [t] = getTrip id []
      rw [getTrip_cons, if_neg h]
  | cons u l ih =>
      have hp : putTrip t (u :: l) = if u.id = t.id then t :: l else u :: putTrip t l := rfl
      rw [hp]
      by_cases hu : u.id = t.id
      · rw [if_pos hu, getTrip_cons, getTrip_cons, if_neg h,
          if_neg (fun hc : u.id = id => h (hu ▸ hc))]
      · rw [if_neg hu, getTrip_cons, getTrip_cons]
        by_cases hid : u.id = id
        · rw [if_pos hid, if_pos hid]
        · rw [if_neg hid, if_neg hid]
          exact ih

/-- Replacing an entry in place (the id already occurs) keeps the id
sequence of the list. -/
theorem map_id_putTrip_of_mem {t : Trip} {l : List Trip}
    (hmem : ∃ u ∈ l, u.id = t.id) :
    (putTrip t l).map Trip.id = l.map Trip.id := by
  induction l with
  | nil => simp at hmem
  | cons u l ih =>
      by_cases hu : u.id = t.id
      · simp [putTrip, hu]
      · rcases hmem with ⟨v, hv, hvid⟩
        rcases List.mem_cons.mp hv with rfl | hv'
        · exact absurd hvid hu
        · simp [putTrip, hu, ih ⟨v, hv', hvid⟩]

/-- With pairwise-distinct ids, two members with equal id are equal. -/
theorem eq_of_mem_of_id_eq {l : List Trip} {u v : Trip}
    (hnd : (l.map Trip.id).Nodup) (hu : u ∈ l) (hv : v ∈ l)
    (h : u.id = v.id) : u = v := by
  induction l with
  | nil => simp at hu
  | cons w l ih =>
      simp only [List.map_cons, List.nodup_cons] at hnd
      rcases List.mem_cons.mp hu with rfl | hu'
      · rcases List.mem_cons.mp hv with rfl | hv'
        · rfl
        · exact absurd (h ▸ List.mem_map_of_mem Trip.id hv') hnd.1
      · rcases List.mem_cons.mp hv with rfl | hv'
        · exact absurd (h ▸ List.mem_map_of_mem Trip.id hu') hnd.1
        · exact ih hnd.2 hu' hv'

/-- Unpack a successful `getTrip`. -/
theorem getTrip_mem {id : ℕ} {l : List Trip} {t : Trip}
    (h : getTrip id l = some t) : t ∈ l ∧ t.id = id := by
  have hm := List.mem_of_find?_eq_some h
  have hp := List.find?_some h
  simp at hp
  exact ⟨hm, hp⟩

/-- Unpack a successful `getActiveTrip`. -/
theorem getActiveTrip_mem {v : ℕ} {l : List Trip} {t : Trip}
    (h : getActiveTrip v l = some t) :
    t ∈ l ∧ t.vehicleId = v ∧ t.status = TripStatus.active := by
  have hm := List.mem_of_find?_eq_some h
  have hp := List.find?_some h
  simp at hp
  exact ⟨hm, hp.1, hp.2⟩

/-- `getActiveTrip` misses exactly when no member is an active trip of
the vehicle. -/
theorem getActiveTrip_eq_none {v : ℕ} {l : List Trip} :
    getActiveTrip v l = none ↔
      ∀ t ∈ l, ¬ (t.vehicleId = v ∧ t.status = TripStatus.active) := by
  constructor
  · intro h t ht hc
    have := List.find?_eq_none.mp h t ht
    simp [hc.1, hc.2] at this
  · intro h
    apply List.find?_eq_none.mpr
    intro t ht
    simpa using h t ht

/-- In-place replacement by an element with the same predicate value
keeps `countP`. -/
theorem countP_putTrip_of_mem {t : Trip} {l : List Trip} {p : Trip → Bool}
    (hmem : ∃ u ∈ l, u.id = t.id)
    (hpres : ∀ u ∈ l, u.id = t.id → p u = p t) :
    (putTrip t l).countP p = l.countP p := by
  induction l with
  | nil => simp at hmem
  | cons u l ih =>
      by_cases hu : u.id = t.id
      · have : p u = p t := hpres u (List.mem_cons_self u l) hu
        simp [putTrip, hu, List.countP_cons, this]
  
      · rcases hmem with ⟨v, hv, hvid⟩
        rcases List.mem_cons.mp hv with rfl | hv'
        · exact absurd hvid hu
        · simp only [putTrip, if_neg hu, List.countP_cons,
            ih ⟨v, hv', hvid⟩ fun w hw hwid => hpres w (List.mem_cons_of_mem u hw) hwid]

/-- Storing a trip the predicate rejects can only lower `countP`. -/
theorem countP_putTrip_le_of_false {t : Trip} {l : List Trip} {p : Trip → Bool}
    (hpt : p t = false) : (putTrip t l).countP p ≤ l.countP p := by
  induction l with
  | nil => simp [putTrip, List.countP_cons, hpt]
  | cons u l ih =>
      by_cases hu : u.id = t.id
      · have hp : putTrip t (u :: l) = t :: l := by simp [putTrip, hu]
        rw [hp, List.countP_cons, List.countP_cons, hpt]
        simp only [Bool.false_eq_true, if_false]
        omega
      · simp only [putTrip, if_neg hu, List.countP_cons]
        omega

/-- A lookup that succeeds on the left part of an appended list is
unchanged. -/
theorem getTrip_append_left {id : ℕ} {l : List Trip} {t : Trip}
    (h : getTrip id l = some t) (l2 : List Trip) :
    getTrip id (l ++ l2) = some t := by
  induction l with
  | nil => simp [getTrip, List.find?] at h
  | cons u l ih =>
      rw [List.cons_append, getTrip_cons]
      rw [getTrip_cons] at h
      by_cases hu : u.id = id
      · rwa [if_pos hu] at h ⊢
      · rw [if_neg hu] at h ⊢
        exact ih h

/-- Peeling the incremental step off `routeSum` of a route extended by
one point. -/
theorem routeSum_concat (dist : ℚ → ℚ → ℚ → ℚ → ℚ) (r : List RoutePoint)
    (p : RoutePoint) :
    routeSum dist (r ++ [p]) =
      routeSum dist r +
        (match r.getLast? with
          | none => 0
          | some q => dist q.lat q.lng p.lat p.lng) := by
  induction r with
  | nil => simp [routeSum]
  | cons a r ih =>
      cases r with
      | nil => simp [routeSum]
      | cons b r =>
          have e1 : (a :: b :: r) ++ [p] = a :: ((b :: r) ++ [p]) := rfl
          have e2 : (b :: r) ++ [p] = b :: (r ++ [p]) := rfl
          have h1 : routeSum dist (a :: ((b :: r) ++ [p])) =
              dist a.lat a.lng b.lat b.lng + routeSum dist ((b :: r) ++ [p]) := by
            rw [e2]; rfl
          have h2 : routeSum dist (a :: b :: r) =
              dist a.lat a.lng b.lat b.lng + routeSum dist (b :: r) := rfl
          rw [e1, h1, ih, h2, List.getLast?_cons_cons]
          ring

/-- Every entry of `mapSet l k v` comes from `l` or is the new pair. -/
theorem mem_mapSet {α : Type} {kv : StoreKey × α} {l : List (StoreKey × α)}
    {k : StoreKey} {v : α} (h : kv ∈ mapSet l k v) : kv ∈ l ∨ kv = (k, v) := by
  induction l with
  | nil => simp [mapSet] at h; exact Or.inr h
  | cons e l ih =>
      rcases e with ⟨ek, ev⟩
      by_cases he : ek = k
      · simp only [mapSet, if_pos he] at h
        rcases List.mem_cons.mp h with rfl | h'
        · exact Or.inr rfl
        · exact Or.inl (List.mem_cons_of_mem _ h')
      · simp only [mapSet, if_neg he] at h
        rcases List.mem_cons.mp h with rfl | h'
        · exact Or.inl (List.mem_cons_self _ _)
        · rcases ih h' with h'' | h''
          · exact Or.inl (List.mem_cons_of_mem _ h'')
          · exact Or.inr h''

/-- `mapGet` after `mapSet` at the same key sees the new value. -/
theorem mapGet_mapSet_self {α : Type} (l : List (StoreKey × α)) (k : StoreKey) (v : α) :
    mapGet (mapSet l k v) k = some v := by
  induction l with
  | nil => simp [mapSet, mapGet]
  | cons e l ih =>
      rcases e with ⟨ek, ev⟩
      by_cases he : ek = k
      · simp [mapSet, mapGet, he]
      · simp only [mapSet, if_neg he, mapGet, if_neg he]
        exact ih

/-- `mapGet` after `mapSet` at a different key is unchanged. -/
theorem mapSet_cons {α : Type} (ek : StoreKey) (ev : α) (l : List (StoreKey × α))
    (k : StoreKey) (v : α) :
    mapSet ((ek, ev) :: l) k v =
      if ek = k then (k, v) :: l else (ek, ev) :: mapSet l k v := rfl

theorem mapGet_cons {α : Type} (ek : StoreKey) (ev : α) (l : List (StoreKey × α))
    (k : StoreKey) :
    mapGet ((ek, ev) :: l) k = if ek = k then some ev else mapGet l k := rfl

theorem mapGet_mapSet_ne {α : Type} {k k' : StoreKey} (h : k' ≠ k)
    (l : List (StoreKey × α)) (v : α) :
    mapGet (mapSet l k v) k' = mapGet l k' := by
  induction l with
  | nil =>
      show mapGet [(k, v)] k' = mapGet [] k'
      rw [mapGet_cons, if_neg (fun hc : k = k' => h hc.symm)]
  | cons e l ih =>
      rcases e with ⟨ek, ev⟩
      rw [mapSet_cons]
      by_cases he : ek = k
      · rw [if_pos he, mapGet_cons, mapGet_cons,
          if_neg (fun hc : k = k' => h hc.symm),
          if_neg (fun hc : ek = k' => h (hc ▸ he))]
      · rw [if_neg he, mapGet_cons, mapGet_cons]
        by_cases he' : ek = k'
        · rw [if_pos he', if_pos he']
        · rw [if_neg he', if_neg he']
          exact ih

unseal Rat.add Rat.mul Rat.inv Rat.sub Rat.ofScientific in
/-- Claim C2 (counterexample): in Scenario A the resulting active trip's
distance is 0, not ≈ 0.73 miles — the trip's route starts empty, so the
single ingested sample becomes the first route point and contributes no
distance (`calculateDistance` is never called; `startCoords` are not a
route point). `maxSpeed = 40` does hold. -/
theorem claim_C2_scenarioA_cex :
    Option.map Trip.distance (getTrip 0 (scenarioA demoDist).trips) = some 0 ∧
    ¬ Option.map Trip.distance (getTrip 0 (scenarioA demoDist).trips) = some (73/100) ∧
    Option.map Trip.maxSpeed (getTrip 0 (scenarioA demoDist).trips) = some 40 := by
  decide

unseal Rat.add Rat.mul Rat.inv Rat.sub Rat.ofScientific in
/-- Claim C2 (corrected): after `startTrip(v1, d1, "A St",
{40.7485,-73.9883})` and one `ingestLocation({vehicleId:v1,
latitude:40.7580, longitude:-73.9855, speed:40})`, the active trip for
`v1` has `distance = 0` (the first appended route point contributes 0 and
the start coordinates are not part of the route), `maxSpeed = 40`, and a
route consisting of exactly the one ingested point. The distance function
is never invoked on this run, so the stand-in metric is immaterial. -/
theorem claim_C2_scenarioA_amended :
    Option.map Trip.distance (getTrip 0 (scenarioA demoDist).trips) = some 0 ∧
    Option.map Trip.maxSpeed (getTrip 0 (scenarioA demoDist).trips) = some 40 ∧
    Option.map Trip.route (getTrip 0 (scenarioA demoDist).trips) =
      some [⟨40758/1000, -739855/10000, 1⟩] ∧
    Option.map Trip.status (getTrip 0 (scenarioA demoDist).trips) =
      some TripStatus.active := by
  decide

/-- Claim C3 (counterexample): an `ingestLocation` payload with
`latitude: 200` is accepted, not rejected — the call succeeds, the
vehicle's CurrentState is set to the out-of-range sample, and a
notification is broadcast. -/
theorem claim_C3_latitude_cex :
    (postObdLocation demoDist rawBadLatitude emptyState).toOption ≠ none ∧
    Option.map VehicleLocation.latitude
      (getVehicleLocation 7 (applyOp demoDist (.ingestLoc rawBadLatitude) emptyState)) =
      some 200 ∧
    (applyOp demoDist (.ingestLoc rawBadLatitude) emptyState).broadcasts.length = 1 := by
  decide

/-- Claim C3 (corrected): for every `ingestLocation` call whose payload
parses (it is well-typed) and carries `latitude = 200`, the call
succeeds — `insertVehicleLocationSchema` checks types and presence only,
never numeric ranges — the sample is stored with latitude 200 and
overwrites the vehicle's CurrentState, and a `location` notification is
broadcast to every observer. -/
theorem claim_C3_latitude_permissive (dist : ℚ → ℚ → ℚ → ℚ → ℚ) (s : ServerState)
    (raw : RawLocationBody) (ins : InsertVehicleLocation)
    (hok : parseInsertVehicleLocation raw = .ok ins) (hlat : ins.latitude = 200) :
    ∃ loc s', postObdLocation dist raw s = .ok (loc, s') ∧
      loc.latitude = 200 ∧
      getVehicleLocation ins.vehicleId s' = some loc ∧
      s'.broadcasts = s.broadcasts ++
        [.location ⟨loc.vehicleId, loc.latitude, loc.longitude, loc.speed, loc.heading,
          loc.timestamp⟩] := by
  unfold postObdLocation
  rw [hok]
  refine ⟨(createVehicleLocation ins s).1, _, rfl, ?_, ?_, ?_⟩
  · simp [createVehicleLocation, hlat]
  · cases hat : getActiveTrip (createVehicleLocation ins s).1.vehicleId
        (createVehicleLocation ins s).2.trips with
    | none =>
        simp only [hat]
        simp [getVehicleLocation, createVehicleLocation, mapGet_mapSet_self, mapGet_mapSet_ne]
    | some t =>
        simp only [hat]
        simp [getVehicleLocation, createVehicleLocation, mapGet_mapSet_self, mapGet_mapSet_ne]
  · cases hat : getActiveTrip (createVehicleLocation ins s).1.vehicleId
        (createVehicleLocation ins s).2.trips with
    | none => simp only [hat]; simp [createVehicleLocation]
    | some t => simp only [hat]; simp [createVehicleLocation]

/-- Claim C3 witness: the corrected statement evaluated on the concrete
Scenario B payload against the empty server. -/
theorem claim_C3_latitude_permissive_witness :
    ∃ loc s', postObdLocation demoDist rawBadLatitude emptyState = .ok (loc, s') ∧
      loc.latitude = 200 ∧
      getVehicleLocation 7 s' = some loc ∧
      s'.broadcasts = emptyState.broadcasts ++
        [.location ⟨loc.vehicleId, loc.latitude, loc.longitude, loc.speed, loc.heading,
          loc.timestamp⟩] :=
  claim_C3_latitude_permissive demoDist emptyState rawBadLatitude
    ⟨7, none, 200, -739883/10000, some 10, none, none, none⟩ rfl rfl

/-- Claim C4 (counterexample): `completeTrip` on an id whose session is
already completed does not fail with `NotFoundError`; it succeeds again
and mutates the stored record (here the end location changes from
"End One" to "End Two"). -/
theorem claim_C4_completeTrip_cex :
    Option.map Trip.status (getTrip 0 scenarioD.trips) = some TripStatus.completed ∧
    (postCompleteTrip 0 "End Two" ⟨5, 6⟩ scenarioD).toOption ≠ none ∧
    Option.map Trip.endLocation (getTrip 0 scenarioD.trips) = some (some "End One") ∧
    Option.map Trip.endLocation (getTrip 0 scenarioDAgain.trips) = some (some "End Two") := by
  decide

/-- Claim C4 (corrected): `completeTrip(tripId, endLocation, endCoords)`
fails with `NotFoundError` exactly when `tripId` is absent from storage,
and on that failure the state is unchanged; when the trip exists — active
or already completed — the call succeeds and overwrites `endLocation`,
`endCoords`, `endTime` and sets `status = completed`, leaving every other
field and every other record untouched. -/
theorem claim_C4_completeTrip_amended (dist : ℚ → ℚ → ℚ → ℚ → ℚ) (s : ServerState)
    (id : ℕ) (el : String) (ec : LatLng) :
    (getTrip id s.trips = none →
       postCompleteTrip id el ec s = .error "Trip not found" ∧
       applyOp dist (.finishTrip id el ec) s = s) ∧
    (∀ t, getTrip id s.trips = some t →
       postCompleteTrip id el ec s = .ok
         ({ t with endLocation := some el, endCoords := some ec,
                   endTime := some s.now, status := .completed },
          { s with
              trips := putTrip { t with endLocation := some el, endCoords := some ec,
                                        endTime := some s.now, status := .completed } s.trips,
              now := s.now + 1 })) := by
  constructor
  · intro hn
    have hpost : postCompleteTrip id el ec s = .error "Trip not found" := by
      unfold postCompleteTrip completeTrip
      rw [hn]
    have happ : applyOp dist (.finishTrip id el ec) s =
        (match postCompleteTrip id el ec s with
          | .ok r => r.2
          | .error _ => s) := rfl
    refine ⟨hpost, ?_⟩
    rw [happ, hpost]
  · intro t ht
    unfold postCompleteTrip completeTrip
    rw [ht]

/-- Claim C4 witness: the no-such-trip half evaluated against the empty
server. -/
theorem claim_C4_completeTrip_amended_witness :
    postCompleteTrip 99 "X" ⟨0, 0⟩ emptyState = .error "Trip not found" ∧
    applyOp demoDist (.finishTrip 99 "X" ⟨0, 0⟩) emptyState = emptyState :=
  (claim_C4_completeTrip_amended demoDist emptyState 99 "X" ⟨0, 0⟩).1 rfl

/-- Claim C8 (code bug): after appending two samples tagged with trip 0
via the ingestion path, `routeForTrip(0)` returns three entries — the
most recent sample appears twice, because the `-current` alias entry of
`MemStorage.createVehicleLocation` also matches the trip-id filter of
`getVehicleRoute`. The spec's round-trip property (and the `DbStorage`
implementation, which stores one row per sample) require exactly the two
samples in order. -/
theorem claim_C8_route_duplicate :
    (getVehicleRoute 0 scenarioRoute).map VehicleLocation.id = [1, 2, 2] ∧
    (getVehicleRoute 0 scenarioRoute).map VehicleLocation.latitude = [10, 11, 11] := by
  decide

/-- Claim C9 (counterexample): two `recordDiagnostic` calls leave three
records in the diagnostic store — the `-current` alias plus one
uniquely-keyed record per sample — so per-sample history does accumulate
(the code comment even reads "Also store with unique ID for history");
only the retrieval API is restricted to the latest record. -/
theorem claim_C9_diagnostic_cex :
    scenarioDiag.obd.length = 3 ∧
    Option.map ObdData.rpm (getLatestObdData 5 scenarioDiag) = some 2000 ∧
    Option.map ObdData.rpm (mapGet scenarioDiag.obd (.byId 0)) = some 1000 ∧
    Option.map ObdData.rpm (mapGet scenarioDiag.obd (.byId 1)) = some 2000 := by
  decide

/-- Claim C9 (corrected): `recordDiagnostic` makes the new sample the
vehicle's current diagnostic — the only record the retrieval API exposes
— but it also appends a per-sample record under a fresh unique key on
every call, and all previously stored per-sample records persist; the
store therefore accumulates diagnostic history even though no retrieval
path returns it. -/
theorem claim_C9_diagnostic_amended (s : ServerState) (raw : RawObdBody)
    (ins : InsertObdData) (hok : parseInsertObdData raw = .ok ins) :
    ∃ d s', postObdData raw s = .ok (d, s') ∧
      getLatestObdData ins.vehicleId s' = some d ∧
      mapGet s'.obd (.byId s.nextId) = some d ∧
      (∀ k v, mapGet s.obd k = some v → k ≠ .current ins.vehicleId →
        k ≠ .byId s.nextId → mapGet s'.obd k = some v) := by
  unfold postObdData
  rw [hok]
  refine ⟨(createObdData ins s).1, _, rfl, ?_, ?_, ?_⟩
  · simp [getLatestObdData, createObdData, mapGet_mapSet_self, mapGet_mapSet_ne]
  · simp [createObdData, mapGet_mapSet_self]
  · intro k v hold hne1 hne2
    simp only [createObdData]
    rw [mapGet_mapSet_ne hne2, mapGet_mapSet_ne hne1]
    exact hold

/-- Claim C9 witness: the corrected statement evaluated on the first
concrete diagnostic payload against the empty server. -/
theorem claim_C9_diagnostic_amended_witness :
    ∃ d s', postObdData rawDiag1 emptyState = .ok (d, s') ∧
      getLatestObdData 5 s' = some d ∧
      mapGet s'.obd (.byId 0) = some d ∧
      (∀ k v, mapGet emptyState.obd k = some v → k ≠ .current 5 →
        k ≠ .byId 0 → mapGet s'.obd k = some v) :=
  claim_C9_diagnostic_amended emptyState rawDiag1
    ⟨5, none, some 1000, none, none, none, none, none, none⟩ rfl

/-- Claim C10 (confirmed): a `POST /api/obd/data` ingestion, whether it
validates or not and whether or not the vehicle has an active trip,
leaves the trips store — every TripSession record — completely
unchanged; only the diagnostic store and the broadcast log are touched. -/
theorem claim_C10_obd_frame (dist : ℚ → ℚ → ℚ → ℚ → ℚ) (raw : RawObdBody)
    (s : ServerState) :
    (applyOp dist (.ingestObd raw) s).trips = s.trips := by
  have happ : applyOp dist (.ingestObd raw) s =
      (match postObdData raw s with
        | .ok r => r.2
        | .error _ => s) := rfl
  rw [happ]
  unfold postObdData
  cases h : parseInsertObdData raw with
  | error e => rfl
  | ok ins => rfl

/-- Claim C10 witness: the frame property evaluated on a concrete
diagnostic ingestion against the round-trip scenario state. -/
theorem claim_C10_obd_frame_witness :
    (applyOp demoDist (.ingestObd rawDiag1) scenarioRoute).trips = scenarioRoute.trips :=
  claim_C10_obd_frame demoDist rawDiag1 scenarioRoute

theorem keyFresh_mono {k : StoreKey} {m m' : ℕ} (h : m ≤ m')
    (hk : keyFresh k m = true) : keyFresh k m' = true := by
  cases k with
  | current v => simp [keyFresh]
  | byId n => simp [keyFresh] at hk ⊢; omega

theorem getActiveTrip_append_none {v : ℕ} {l : List Trip}
    (h : getActiveTrip v l = none) (t : Trip)
    (ht : t.vehicleId = v ∧ t.status = TripStatus.active) :
    getActiveTrip v (l ++ [t]) = some t := by
  induction l with
  | nil => simp [getActiveTrip, List.find?, ht.1, ht.2]
  | cons u l ih =>
      by_cases hu : u.vehicleId = v ∧ u.status = TripStatus.active
      · rw [getActiveTrip_cons, if_pos hu] at h
        exact absurd h (by simp)
      · rw [getActiveTrip_cons, if_neg hu] at h
        rw [List.cons_append, getActiveTrip_cons, if_neg hu]
        exact ih h

theorem activeCount_eq_zero_of_none {v : ℕ} {l : List Trip}
    (h : getActiveTrip v l = none) : activeCount v l = 0 := by
  rw [activeCount, List.countP_eq_zero]
  intro t ht
  have := getActiveTrip_eq_none.mp h t ht
  simpa using this

theorem activeCount_putTrip_same {l : List Trip} {t' ta : Trip}
    (hnd : (l.map Trip.id).Nodup) (hmem : ta ∈ l) (hid : t'.id = ta.id)
    (hveh : t'.vehicleId = ta.vehicleId) (hst : t'.status = ta.status) (w : ℕ) :
    activeCount w (putTrip t' l) = activeCount w l := by
  apply countP_putTrip_of_mem ⟨ta, hmem, hid.symm⟩
  intro u hu huid
  have hu' : u = ta := eq_of_mem_of_id_eq hnd hu hmem (huid.trans hid)
  subst hu'
  simp [hveh, hst]

theorem tripsWF_append_fresh {l : List Trip} {m : ℕ} {t : Trip}
    (hids : ∀ u ∈ l, u.id < m) (hnd : (l.map Trip.id).Nodup) (ht : t.id = m) :
    (∀ u ∈ l ++ [t], u.id < m + 1) ∧ (((l ++ [t]).map Trip.id)).Nodup := by
  constructor
  · intro u hu
    rcases List.mem_append.mp hu with h | h
    · exact Nat.lt_succ_of_lt (hids u h)
    · rw [List.mem_singleton.mp h, ht]
      exact Nat.lt_succ_self m
  · rw [List.map_append]
    simp only [List.map_cons, List.map_nil]
    rw [List.nodup_append]
    refine ⟨hnd, List.nodup_singleton _, ?_⟩
    intro x hx
    simp only [List.mem_singleton]
    intro hc
    rcases List.mem_map.mp hx with ⟨u, hu, hux⟩
    have := hids u hu
    omega

theorem ingestObd_spec (dist : ℚ → ℚ → ℚ → ℚ → ℚ) (raw : RawObdBody) (s : ServerState) :
    applyOp dist (.ingestObd raw) s = s ∨
    (∃ ins, parseInsertObdData raw = .ok ins ∧
      applyOp dist (.ingestObd raw) s =
        { s with
            obd := mapSet (mapSet s.obd (.current ins.vehicleId) (createObdData ins s).1)
              (.byId s.nextId) (createObdData ins s).1
            broadcasts := s.broadcasts ++
              [.obd ⟨ins.vehicleId, ins.rpm.getD 0, ins.coolantTemp.getD 0,
                ins.batteryVoltage.getD 0, ins.throttlePosition.getD 0,
                ins.fuelLevel.getD 0, ins.engineLoad.getD 0, s.now⟩]
            nextId := s.nextId + 1
            now := s.now + 1 }) := by
  have happ : applyOp dist (.ingestObd raw) s =
      (match postObdData raw s with
        | .ok r => r.2
        | .error _ => s) := rfl
  cases hp : parseInsertObdData raw with
  | error e =>
      left
      rw [happ]
      unfold postObdData
      rw [hp]
  | ok ins =>
      right
      refine ⟨ins, rfl, ?_⟩
      rw [happ]
      unfold postObdData
      rw [hp]
      rfl

theorem startTrip_spec (dist : ℚ → ℚ → ℚ → ℚ → ℚ) (v : ℕ) (dId : Option ℕ)
    (sl : String) (sc : LatLng) (s : ServerState) :
    (∃ t, getActiveTrip v s.trips = some t ∧ applyOp dist (.startTrip v dId sl sc) s = s) ∨
    (getActiveTrip v s.trips = none ∧
      ∃ tN : Trip,
        tN.id = s.nextId ∧ tN.vehicleId = v ∧ tN.status = TripStatus.active ∧
        tN.distance = 0 ∧ tN.route = [] ∧ tN.maxSpeed = 0 ∧
        applyOp dist (.startTrip v dId sl sc) s =
          { s with
              trips := putTrip tN s.trips
              nextId := s.nextId + 1
              now := s.now + 1 }) := by
  have happ : applyOp dist (.startTrip v dId sl sc) s =
      (match postTrips v dId sl sc s with
        | .ok r => r.2
        | .error _ => s) := rfl
  cases hat : getActiveTrip v s.trips with
  | some t =>
      left
      refine ⟨t, rfl, ?_⟩
      rw [happ]
      unfold postTrips
      rw [hat]
  | none =>
      right
      refine ⟨rfl, ⟨s.nextId, v, dId, sl, none, sc, none, 0, 0, 0, 0, [],
        s.now, none, .active⟩, rfl, rfl, rfl, rfl, rfl, rfl, ?_⟩
      rw [happ]
      unfold postTrips
      rw [hat]

theorem finishTrip_spec (dist : ℚ → ℚ → ℚ → ℚ → ℚ) (id : ℕ) (el : String)
    (ec : LatLng) (s : ServerState) :
    (getTrip id s.trips = none ∧ applyOp dist (.finishTrip id el ec) s = s) ∨
    (∃ t t', getTrip id s.trips = some t ∧
      t'.id = t.id ∧ t'.vehicleId = t.vehicleId ∧ t'.status = TripStatus.completed ∧
      t'.distance = t.distance ∧ t'.route = t.route ∧ t'.maxSpeed = t.maxSpeed ∧
      applyOp dist (.finishTrip id el ec) s =
        { s with
            trips := putTrip t' s.trips
            now := s.now + 1 }) := by
  have happ : applyOp dist (.finishTrip id el ec) s =
      (match postCompleteTrip id el ec s with
        | .ok r => r.2
        | .error _ => s) := rfl
  cases ht : getTrip id s.trips with
  | none =>
      left
      refine ⟨rfl, ?_⟩
      rw [happ]
      unfold postCompleteTrip completeTrip
      rw [ht]
  | some t =>
      right
      refine ⟨t, { t with endLocation := some el,
                          endCoords := some ec,
                          endTime := some s.now,
                          status := .completed },
        rfl, rfl, rfl, rfl, rfl, rfl, rfl, ?_⟩
      rw [happ]
      unfold postCompleteTrip completeTrip
      rw [ht]

theorem ingestLoc_spec (dist : ℚ → ℚ → ℚ → ℚ → ℚ) (raw : RawLocationBody) (s : ServerState) :
    applyOp dist (.ingestLoc raw) s = s ∨
    (∃ ins, parseInsertVehicleLocation raw = .ok ins ∧
      ∃ trips',
        ((getActiveTrip ins.vehicleId s.trips = none ∧ trips' = s.trips) ∨
         (∃ ta t', getActiveTrip ins.vehicleId s.trips = some ta ∧
           trips' = putTrip t' s.trips ∧
           t'.id = ta.id ∧ t'.vehicleId = ta.vehicleId ∧ t'.status = ta.status ∧
           t'.route = ta.route ++ [⟨ins.latitude, ins.longitude, s.now⟩] ∧
           t'.distance = ta.distance +
             (match ta.route.getLast? with
               | none => 0
               | some p => dist p.lat p.lng ins.latitude ins.longitude) ∧
           t'.maxSpeed = max ta.maxSpeed (ins.speed.getD 0) ∧
           t'.endCoords = some ⟨ins.latitude, ins.longitude⟩)) ∧
        applyOp dist (.ingestLoc raw) s =
          { s with
              trips := trips'
              locs := mapSet (mapSet s.locs (.current ins.vehicleId)
                ⟨s.nextId, ins.vehicleId, ins.tripId, ins.latitude, ins.longitude,
                  ins.speed.getD 0, ins.heading.getD 0, ins.altitude.getD 0,
                  ins.accuracy.getD 0, s.now⟩) (.byId s.nextId)
                ⟨s.nextId, ins.vehicleId, ins.tripId, ins.latitude, ins.longitude,
                  ins.speed.getD 0, ins.heading.getD 0, ins.altitude.getD 0,
                  ins.accuracy.getD 0, s.now⟩
              broadcasts := s.broadcasts ++
                [.location ⟨ins.vehicleId, ins.latitude, ins.longitude,
                  ins.speed.getD 0, ins.heading.getD 0, s.now⟩]
              nextId := s.nextId + 1
              now := s.now + 1 }) := by
  have happ : applyOp dist (.ingestLoc raw) s =
      (match postObdLocation dist raw s with
        | .ok r => r.2
        | .error _ => s) := rfl
  cases hp : parseInsertVehicleLocation raw with
  | error e =>
      left
      rw [happ]
      unfold postObdLocation
      rw [hp]
  | ok ins =>
      right
      refine ⟨ins, rfl, ?_⟩
      cases hat : getActiveTrip (createVehicleLocation ins s).1.vehicleId
          (createVehicleLocation ins s).2.trips with
      | none =>
          refine ⟨s.trips, Or.inl ⟨hat, rfl⟩, ?_⟩
          rw [happ]
          unfold postObdLocation
          rw [hp]
          dsimp only
          rw [hat]
          rfl
      | some ta =>
          refine ⟨_, Or.inr ⟨ta, { ta with
              route := ta.route ++ [⟨ins.latitude, ins.longitude, s.now⟩],
              distance := ta.distance +
                (match ta.route.getLast? with
                  | none => 0
                  | some p => dist p.lat p.lng ins.latitude ins.longitude),
              maxSpeed := max ta.maxSpeed (ins.speed.getD 0),
              endCoords := some ⟨ins.latitude, ins.longitude⟩ },
            hat, rfl, rfl, rfl, rfl, rfl, rfl, rfl, rfl⟩, ?_⟩
          rw [happ]
          unfold postObdLocation
          rw [hp]
          dsimp only
          rw [hat]
          rfl

theorem syncDevice_spec (d : GpsDevice) (s : ServerState) :
    (∃ v, s.vehicles.find? (fun u => decide (u.plate = d.deviceId)) = some v ∧
      ((¬ (d.lat ≠ 0 ∧ d.lng ≠ 0) ∧ syncDevice d s = { s with now := s.now + 1 }) ∨
       ((d.lat ≠ 0 ∧ d.lng ≠ 0) ∧
         ∃ trips',
           ((getActiveTrip v.id s.trips = none ∧ trips' = s.trips) ∨
            (∃ ta t', getActiveTrip v.id s.trips = some ta ∧
              trips' = putTrip t' s.trips ∧
              t'.id = ta.id ∧ t'.vehicleId = ta.vehicleId ∧ t'.status = ta.status ∧
              t'.route = ta.route ++ [⟨d.lat, d.lng, d.dtTracker.getD s.now⟩] ∧
              t'.distance = ta.distance ∧
              t'.maxSpeed = max ta.maxSpeed d.speed ∧
              t'.endCoords = some ⟨d.lat, d.lng⟩)) ∧
           syncDevice d s =
             { s with
                 trips := trips'
                 locs := mapSet (mapSet s.locs (.current v.id)
                   ⟨s.nextId, v.id, none, d.lat, d.lng, d.speed, d.angle, 0, 5, s.now⟩)
                   (.byId s.nextId)
                   ⟨s.nextId, v.id, none, d.lat, d.lng, d.speed, d.angle, 0, 5, s.now⟩
                 nextId := s.nextId + 1
                 now := s.now + 1 }))) ∨
    (s.vehicles.find? (fun u => decide (u.plate = d.deviceId)) = none ∧
      ((¬ (d.lat ≠ 0 ∧ d.lng ≠ 0) ∧ syncDevice d s =
         { s with vehicles := s.vehicles ++ [mkSyncVehicle d s.nextId]
                  nextId := s.nextId + 1
                  now := s.now + 1 }) ∨
       ((d.lat ≠ 0 ∧ d.lng ≠ 0) ∧
         ∃ trips',
           ((getActiveTrip s.nextId s.trips = none ∧ trips' = s.trips) ∨
            (∃ ta t', getActiveTrip s.nextId s.trips = some ta ∧
              trips' = putTrip t' s.trips ∧
              t'.id = ta.id ∧ t'.vehicleId = ta.vehicleId ∧ t'.status = ta.status ∧
              t'.route = ta.route ++ [⟨d.lat, d.lng, d.dtTracker.getD s.now⟩] ∧
              t'.distance = ta.distance ∧
              t'.maxSpeed = max ta.maxSpeed d.speed ∧
              t'.endCoords = some ⟨d.lat, d.lng⟩)) ∧
           syncDevice d s =
             { s with
                 vehicles := s.vehicles ++ [mkSyncVehicle d s.nextId]
                 trips := trips'
                 locs := mapSet (mapSet s.locs (.current s.nextId)
                   ⟨s.nextId + 1, s.nextId, none, d.lat, d.lng, d.speed, d.angle,
                     0, 5, s.now⟩) (.byId (s.nextId + 1))
                   ⟨s.nextId + 1, s.nextId, none, d.lat, d.lng, d.speed, d.angle,
                     0, 5, s.now⟩
                 nextId := s.nextId + 1 + 1
                 now := s.now + 1 }))) := by
  cases hv : s.vehicles.find? (fun u => decide (u.plate = d.deviceId)) with
  | some v =>
      left
      refine ⟨v, rfl, ?_⟩
      by_cases hc : d.lat ≠ 0 ∧ d.lng ≠ 0
      · right
        refine ⟨hc, ?_⟩
        cases hat : getActiveTrip v.id s.trips with
        | none =>
            refine ⟨s.trips, Or.inl ⟨rfl, rfl⟩, ?_⟩
            unfold syncDevice
            rw [hv]
            dsimp only
            rw [if_pos hc]
            have hat' : getActiveTrip v.id (createVehicleLocation
                ⟨v.id, none, d.lat, d.lng, some d.speed, some d.angle, some 0, some 5⟩
                s).2.trips = none := hat
            rw [hat']
            rfl
        | some ta =>
            refine ⟨_, Or.inr ⟨ta, { ta with
                route := ta.route ++ [⟨d.lat, d.lng, d.dtTracker.getD s.now⟩],
                maxSpeed := max ta.maxSpeed d.speed,
                endCoords := some ⟨d.lat, d.lng⟩ },
              rfl, rfl, rfl, rfl, rfl, rfl, rfl, rfl, rfl⟩, ?_⟩
            unfold syncDevice
            rw [hv]
            dsimp only
            rw [if_pos hc]
            have hat' : getActiveTrip v.id (createVehicleLocation
                ⟨v.id, none, d.lat, d.lng, some d.speed, some d.angle, some 0, some 5⟩
                s).2.trips = some ta := hat
            rw [hat']
            rfl
      · left
        refine ⟨hc, ?_⟩
        unfold syncDevice
        rw [hv]
        dsimp only
        rw [if_neg hc]
  | none =>
      right
      refine ⟨rfl, ?_⟩
      by_cases hc : d.lat ≠ 0 ∧ d.lng ≠ 0
      · right
        refine ⟨hc, ?_⟩
        cases hat : getActiveTrip s.nextId s.trips with
        | none =>
            refine ⟨s.trips, Or.inl ⟨rfl, rfl⟩, ?_⟩
            unfold syncDevice
            rw [hv]
            dsimp only
            rw [if_pos hc]
            have hat' : getActiveTrip (mkSyncVehicle d s.nextId).id
                (createVehicleLocation
                  ⟨(mkSyncVehicle d s.nextId).id, none, d.lat, d.lng, some d.speed,
                    some d.angle, some 0, some 5⟩
                  { s with vehicles := s.vehicles ++ [mkSyncVehicle d s.nextId]
                           nextId := s.nextId + 1 }).2.trips = none := hat
            rw [hat']
            rfl
        | some ta =>
            refine ⟨_, Or.inr ⟨ta, { ta with
                route := ta.route ++ [⟨d.lat, d.lng, d.dtTracker.getD s.now⟩],
                maxSpeed := max ta.maxSpeed d.speed,
                endCoords := some ⟨d.lat, d.lng⟩ },
              rfl, rfl, rfl, rfl, rfl, rfl, rfl, rfl, rfl⟩, ?_⟩
            unfold syncDevice
            rw [hv]
            dsimp only
            rw [if_pos hc]
            have hat' : getActiveTrip (mkSyncVehicle d s.nextId).id
                (createVehicleLocation
                  ⟨(mkSyncVehicle d s.nextId).id, none, d.lat, d.lng, some d.speed,
                    some d.angle, some 0, some 5⟩
                  { s with vehicles := s.vehicles ++ [mkSyncVehicle d s.nextId]
                           nextId := s.nextId + 1 }).2.trips = some ta := hat
            rw [hat']
            rfl
      · left
        refine ⟨hc, ?_⟩
        unfold syncDevice
        rw [hv]
        dsimp only
        rw [if_neg hc]

theorem stepWF (dist : ℚ → ℚ → ℚ → ℚ → ℚ) (op : Op) (s : ServerState)
    (hwf : WFState s) (hone : ∀ w, activeCount w s.trips ≤ 1) :
    WFState (applyOp dist op s) ∧ ∀ w, activeCount w (applyOp dist op s).trips ≤ 1 := by
  obtain ⟨hids, hnd, hlocs, hobd, hveh⟩ := hwf
  have hobdmap : ∀ (l : List (StoreKey × ObdData)) (m : ℕ) vid rec,
      (∀ kv ∈ l, keyFresh kv.1 m = true) →
      ∀ kv ∈ mapSet (mapSet l (StoreKey.current vid) rec) (StoreKey.byId m) rec,
        keyFresh kv.1 (m + 1) = true := by
    intro l m vid rec hl kv hkv
    rcases mem_mapSet hkv with h1 | h1
    · rcases mem_mapSet h1 with h2 | h2
      · exact keyFresh_mono (Nat.le_succ _) (hl kv h2)
      · rw [h2]
        rfl
    · rw [h1]
      simp [keyFresh]
  have hlocmap : ∀ (l : List (StoreKey × VehicleLocation)) (m m' : ℕ) vid rec,
      m' < m + 1 →
      (∀ kv ∈ l, keyFresh kv.1 m = true) →
      ∀ kv ∈ mapSet (mapSet l (StoreKey.current vid) rec) (StoreKey.byId m') rec,
        keyFresh kv.1 (m + 1) = true := by
    intro l m m' vid rec hm hl kv hkv
    rcases mem_mapSet hkv with h1 | h1
    · rcases mem_mapSet h1 with h2 | h2
      · exact keyFresh_mono (Nat.le_succ _) (hl kv h2)
      · rw [h2]
        rfl
    · rw [h1]
      simp [keyFresh]
      omega
  have htripsPut : ∀ (trips' : List Trip) (ta t' : Trip) (m : ℕ),
      s.nextId ≤ m →
      ta ∈ s.trips → t'.id = ta.id → t'.vehicleId = ta.vehicleId →
      t'.status = ta.status → trips' = putTrip t' s.trips →
      (∀ t ∈ trips', t.id < m) ∧ (trips'.map Trip.id).Nodup ∧
        (∀ w, activeCount w trips' ≤ 1) := by
    intro trips' ta t' m hm hmem hid hveh' hst htr
    subst htr
    refine ⟨?_, ?_, ?_⟩
    · intro t ht
      rcases mem_putTrip ht with h1 | h1
      · have := hids t h1
        omega
      · rw [h1, hid]
        have := hids ta hmem
        omega
    · rw [map_id_putTrip_of_mem ⟨ta, hmem, hid.symm⟩]
      exact hnd
    · intro w
      rw [activeCount_putTrip_same hnd hmem hid hveh' hst w]
      exact hone w
  cases op with
  | ingestObd raw =>
      rcases ingestObd_spec dist raw s with h | ⟨ins, hp, h⟩
      · rw [h]
        exact ⟨⟨hids, hnd, hlocs, hobd, hveh⟩, hone⟩
      · rw [h]
        refine ⟨⟨?_, hnd, ?_, ?_, ?_⟩, hone⟩
        · intro t ht
          exact Nat.lt_succ_of_lt (hids t ht)
        · intro kv hkv
          exact keyFresh_mono (Nat.le_succ _) (hlocs kv hkv)
        · intro kv hkv
          exact hobdmap s.obd s.nextId ins.vehicleId (createObdData ins s).1 hobd kv hkv
        · intro u hu
          exact Nat.lt_succ_of_lt (hveh u hu)
  | ingestLoc raw =>
      rcases ingestLoc_spec dist raw s with h | ⟨ins, hp, trips', htr, h⟩
      · rw [h]
        exact ⟨⟨hids, hnd, hlocs, hobd, hveh⟩, hone⟩
      · rw [h]
        have htf : (∀ t ∈ trips', t.id < s.nextId + 1) ∧ (trips'.map Trip.id).Nodup ∧
            (∀ w, activeCount w trips' ≤ 1) := by
          rcases htr with ⟨hat, htr⟩ | ⟨ta, t', hat, htr, hid, hveh', hst, _⟩
          · subst htr
            exact ⟨fun t ht => Nat.lt_succ_of_lt (hids t ht), hnd, hone⟩
          · exact htripsPut trips' ta t' (s.nextId + 1) (Nat.le_succ _)
              (getActiveTrip_mem hat).1 hid hveh' hst htr
        refine ⟨⟨htf.1, htf.2.1, ?_, ?_, ?_⟩, htf.2.2⟩
        · intro kv hkv
          exact hlocmap s.locs s.nextId s.nextId ins.vehicleId _ (Nat.lt_succ_self _)
            hlocs kv hkv
        · intro kv hkv
          exact keyFresh_mono (Nat.le_succ _) (hobd kv hkv)
        · intro u hu
          exact Nat.lt_succ_of_lt (hveh u hu)
  | startTrip v dId sl sc =>
      rcases startTrip_spec dist v dId sl sc s with ⟨t, hat, h⟩ | ⟨hat, tN, hidN, hvN, hsN, _, _, _, h⟩
      · rw [h]
        exact ⟨⟨hids, hnd, hlocs, hobd, hveh⟩, hone⟩
      · rw [h]
        have hput : putTrip tN s.trips = s.trips ++ [tN] := by
          apply putTrip_append
          intro u hu hc
          have := hids u hu
          omega
        refine ⟨⟨?_, ?_, ?_, ?_, ?_⟩, ?_⟩
        · rw [hput]
          intro t ht
          rcases List.mem_append.mp ht with h1 | h1
          · exact Nat.lt_succ_of_lt (hids t h1)
          · rw [List.mem_singleton.mp h1, hidN]
            exact Nat.lt_succ_self _
        · rw [hput]
          exact (tripsWF_append_fresh hids hnd hidN).2
        · intro kv hkv
          exact keyFresh_mono (Nat.le_succ _) (hlocs kv hkv)
        · intro kv hkv
          exact keyFresh_mono (Nat.le_succ _) (hobd kv hkv)
        · intro u hu
          exact Nat.lt_succ_of_lt (hveh u hu)
        · intro w
          rw [hput, activeCount, List.countP_append]
          by_cases hw : w = v
          · subst hw
            have h0 : activeCount w s.trips = 0 := activeCount_eq_zero_of_none hat
            rw [activeCount] at h0
            rw [h0]
            simp [List.countP_cons, hvN, hsN]
          · have hfalse : (decide (tN.vehicleId = w ∧ tN.status = TripStatus.active)) = false := by
              simp only [decide_eq_false_iff_not]
              intro hcc
              exact hw (hvN ▸ hcc.1.symm)
            rw [List.countP_cons]
            simp only [List.countP_nil, hfalse, Bool.false_eq_true, if_false]
            have := hone w
            rw [activeCount] at this
            omega
  | finishTrip id el ec =>
      rcases finishTrip_spec dist id el ec s with ⟨ht, h⟩ | ⟨t, t', ht, hid, hveh', hst, _, _, _, h⟩
      · rw [h]
        exact ⟨⟨hids, hnd, hlocs, hobd, hveh⟩, hone⟩
      · rw [h]
        have hmem : t ∈ s.trips := (getTrip_mem ht).1
        refine ⟨⟨?_, ?_, hlocs, hobd, hveh⟩, ?_⟩
        · intro u hu
          rcases mem_putTrip hu with h1 | h1
          · exact hids u h1
          · rw [h1, hid]
            exact hids t hmem
        · rw [map_id_putTrip_of_mem ⟨t, hmem, hid.symm⟩]
          exact hnd
        · intro w
          refine le_trans (countP_putTrip_le_of_false ?_) (hone w)
          simp [hst]
  | syncOp d =>
      have happ : applyOp dist (.syncOp d) s = syncDevice d s := rfl
      rw [happ]
      rcases syncDevice_spec d s with ⟨v, hv, hbody⟩ | ⟨hv, hbody⟩
      · rcases hbody with ⟨hc, h⟩ | ⟨hc, trips', htr, h⟩
        · rw [h]
          exact ⟨⟨hids, hnd, hlocs, hobd, hveh⟩, hone⟩
        · rw [h]
          have htf : (∀ t ∈ trips', t.id < s.nextId + 1) ∧ (trips'.map Trip.id).Nodup ∧
              (∀ w, activeCount w trips' ≤ 1) := by
            rcases htr with ⟨hat, htr⟩ | ⟨ta, t', hat, htr, hid, hveh', hst, _⟩
            · subst htr
              exact ⟨fun t ht => Nat.lt_succ_of_lt (hids t ht), hnd, hone⟩
            · exact htripsPut trips' ta t' (s.nextId + 1) (Nat.le_succ _)
                (getActiveTrip_mem hat).1 hid hveh' hst htr
          refine ⟨⟨htf.1, htf.2.1, ?_, ?_, ?_⟩, htf.2.2⟩
          · intro kv hkv
            exact hlocmap s.locs s.nextId s.nextId v.id _ (Nat.lt_succ_self _)
              hlocs kv hkv
          · intro kv hkv
            exact keyFresh_mono (Nat.le_succ _) (hobd kv hkv)
          · intro u hu
            exact Nat.lt_succ_of_lt (hveh u hu)
      · rcases hbody with ⟨hc, h⟩ | ⟨hc, trips', htr, h⟩
        · rw [h]
          refine ⟨⟨?_, hnd, ?_, ?_, ?_⟩, hone⟩
          · intro t ht
            exact Nat.lt_succ_of_lt (hids t ht)
          · intro kv hkv
            exact keyFresh_mono (Nat.le_succ _) (hlocs kv hkv)
          · intro kv hkv
            exact keyFresh_mono (Nat.le_succ _) (hobd kv hkv)
          · intro u hu
            rcases List.mem_append.mp hu with h1 | h1
            · exact Nat.lt_succ_of_lt (hveh u h1)
            · rw [List.mem_singleton.mp h1]
              simp [mkSyncVehicle]
        · rw [h]
          have htf : (∀ t ∈ trips', t.id < s.nextId + 1 + 1) ∧ (trips'.map Trip.id).Nodup ∧
              (∀ w, activeCount w trips' ≤ 1) := by
            rcases htr with ⟨hat, htr⟩ | ⟨ta, t', hat, htr, hid, hveh', hst, _⟩
            · subst htr
              refine ⟨fun t ht => ?_, hnd, hone⟩
              have := hids t ht
              omega
            · exact htripsPut trips' ta t' (s.nextId + 1 + 1) (by omega)
                (getActiveTrip_mem hat).1 hid hveh' hst htr
          refine ⟨⟨htf.1, htf.2.1, ?_, ?_, ?_⟩, htf.2.2⟩
          · intro kv hkv
            exact hlocmap s.locs (s.nextId + 1) (s.nextId + 1) s.nextId
              ⟨s.nextId + 1, s.nextId, none, d.lat, d.lng, d.speed, d.angle, 0, 5, s.now⟩
              (Nat.lt_succ_self _)
              (fun kv hkv => keyFresh_mono (Nat.le_succ _) (hlocs kv hkv)) kv hkv
          · intro kv hkv
            exact keyFresh_mono (show s.nextId ≤ s.nextId + 1 + 1 by omega) (hobd kv hkv)
          · intro u hu
            show u.id < s.nextId + 1 + 1
            rcases List.mem_append.mp hu with h1 | h1
            · have := hveh u h1
              omega
            · rw [List.mem_singleton.mp h1]
              simp only [mkSyncVehicle]
              omega

theorem traceWF (dist : ℚ → ℚ → ℚ → ℚ → ℚ) (ops : List Op) (s : ServerState)
    (hwf : WFState s) (hone : ∀ w, activeCount w s.trips ≤ 1) :
    WFState (runOps dist ops s) ∧ ∀ w, activeCount w (runOps dist ops s).trips ≤ 1 := by
  induction ops generalizing s with
  | nil => exact ⟨hwf, hone⟩
  | cons op ops ih =>
      have hstep := stepWF dist op s hwf hone
      exact ih (applyOp dist op s) hstep.1 hstep.2


unseal Rat.add Rat.mul Rat.inv Rat.sub Rat.ofScientific in
/-- Claim C1 (counterexample): in the mixed-path scenario — one direct
sample at (1,1), then one reconciler-synced sample at (2,2) for the same
active trip — the session's route has both points, but `distance` is
still 0 while the sum of the metric over consecutive route points is 2:
the reconciler appends route points without incrementing `distance`, so
the claimed equality fails for sequences that include the sync path. -/
theorem claim_C1_distance_cex :
    Option.map Trip.distance (getTrip 8 scenarioMixed.trips) = some 0 ∧
    Option.map (fun t => routeSum demoDist t.route) (getTrip 8 scenarioMixed.trips) =
      some 2 ∧
    Option.map (fun t => t.route.length) (getTrip 8 scenarioMixed.trips) = some 2 := by
  decide

/-- Claim C1 (corrected): for every well-formed state and nonnegative
distance function, (i) every operation other than a reconciler sync —
direct location ingestion, diagnostic ingestion, trip start, trip
completion — preserves the invariant that each session's `distance`
equals the sum of `dist` over consecutive route points in arrival order
(the first appended point contributing 0); and (ii) `distance` is
non-decreasing across every operation, the reconciler sync included (the
sync path appends a route point but leaves `distance` unchanged, which
can break the sum equality — the counterexample scenario exhibits this —
but never monotonicity). -/
theorem claim_C1_distance_accumulation (dist : ℚ → ℚ → ℚ → ℚ → ℚ) (op : Op)
    (s : ServerState) (hwf : WFState s) (hd : ∀ a b c e, 0 ≤ dist a b c e) :
    ((∀ d, op ≠ Op.syncOp d) → DistInv dist s → DistInv dist (applyOp dist op s)) ∧
    (∀ id t t2, getTrip id s.trips = some t →
      getTrip id (applyOp dist op s).trips = some t2 → t.distance ≤ t2.distance) := by
  obtain ⟨hids, hnd, hlocs, hobd, hveh⟩ := hwf
  have hmono_id : ∀ (s2 : ServerState), s2.trips = s.trips → ∀ id t t2,
      getTrip id s.trips = some t → getTrip id s2.trips = some t2 →
      t.distance ≤ t2.distance := by
    intro s2 hs id t t2 ht ht2
    rw [hs, ht] at ht2
    cases ht2
    exact le_refl _
  have hmono_put : ∀ (s2 : ServerState) (ta t' : Trip) (add : ℚ), 0 ≤ add →
      ta ∈ s.trips → t'.id = ta.id → t'.distance = ta.distance + add →
      s2.trips = putTrip t' s.trips → ∀ id t t2,
      getTrip id s.trips = some t → getTrip id s2.trips = some t2 →
      t.distance ≤ t2.distance := by
    intro s2 ta t' add hadd hmem hid hdist hs id t t2 ht ht2
    rw [hs] at ht2
    by_cases hcase : t'.id = id
    · have hself : getTrip t'.id (putTrip t' s.trips) = some t' :=
        getTrip_putTrip_self t' s.trips
      rw [hcase] at hself
      rw [hself] at ht2
      cases ht2
      have hta : t = ta := eq_of_mem_of_id_eq hnd (getTrip_mem ht).1 hmem
        ((getTrip_mem ht).2.trans (hcase ▸ hid))
      rw [hta, hdist]
      exact le_add_of_nonneg_right hadd
    · rw [getTrip_putTrip_ne hcase s.trips, ht] at ht2
      cases ht2
      exact le_refl _
  have hdi_ext : ∀ (ta t' : Trip) (p : RoutePoint), DistInv dist s → ta ∈ s.trips →
      t'.route = ta.route ++ [p] →
      t'.distance = ta.distance +
        (match ta.route.getLast? with
          | none => 0
          | some q => dist q.lat q.lng p.lat p.lng) →
      ∀ t ∈ putTrip t' s.trips, t.distance = routeSum dist t.route := by
    intro ta t' p hdi hmem hroute hdist t ht
    rcases mem_putTrip ht with h1 | h1
    · exact hdi t h1
    · rw [h1, hdist, hroute, routeSum_concat, hdi ta hmem]
  have hdi_keep : ∀ (t0 t' : Trip), DistInv dist s → t0 ∈ s.trips →
      t'.route = t0.route → t'.distance = t0.distance →
      ∀ t ∈ putTrip t' s.trips, t.distance = routeSum dist t.route := by
    intro t0 t' hdi hmem hroute hdist t ht
    rcases mem_putTrip ht with h1 | h1
    · exact hdi t h1
    · rw [h1, hdist, hroute]
      exact hdi t0 hmem
  have hdi_new : ∀ (tN : Trip), DistInv dist s → tN.distance = 0 → tN.route = [] →
      ∀ t ∈ putTrip tN s.trips, t.distance = routeSum dist t.route := by
    intro tN hdi hdN hrN t ht
    rcases mem_putTrip ht with h1 | h1
    · exact hdi t h1
    · rw [h1, hdN, hrN]
      rfl
  cases op with
  | ingestObd raw =>
      rcases ingestObd_spec dist raw s with h | ⟨ins, hp, h⟩
      · exact ⟨fun _ hdi => by rw [h]; exact hdi,
          hmono_id _ (by rw [h])⟩
      · refine ⟨fun _ hdi => ?_, hmono_id _ (by rw [h])⟩
        rw [h]
        intro t ht
        exact hdi t ht
  | ingestLoc raw =>
      rcases ingestLoc_spec dist raw s with h | ⟨ins, hp, trips', htr, h⟩
      · exact ⟨fun _ hdi => by rw [h]; exact hdi,
          hmono_id _ (by rw [h])⟩
      · rcases htr with ⟨hat, htr⟩ | ⟨ta, t', hat, htr, hid, hveh', hst, hroute, hdist, hms, hec⟩
        · subst htr
          exact ⟨fun _ hdi => by rw [h]; intro t ht; exact hdi t ht,
            hmono_id _ (by rw [h])⟩
        · subst htr
          constructor
          · intro _ hdi
            rw [h]
            intro t ht
            exact hdi_ext ta t' ⟨ins.latitude, ins.longitude, s.now⟩ hdi
              (getActiveTrip_mem hat).1 hroute hdist t ht
          · refine hmono_put _ ta t'
              (match ta.route.getLast? with
                | none => 0
                | some q => dist q.lat q.lng ins.latitude ins.longitude) ?_
              (getActiveTrip_mem hat).1 hid hdist (by rw [h])
            cases hq : ta.route.getLast? with
            | none => exact le_refl 0
            | some q => exact hd _ _ _ _
  | startTrip v dId sl sc =>
      rcases startTrip_spec dist v dId sl sc s with ⟨t0, hat, h⟩ | ⟨hat, tN, hidN, hvN, hsN, hdN, hrN, hmN, h⟩
      · exact ⟨fun _ hdi => by rw [h]; exact hdi,
          hmono_id _ (by rw [h])⟩
      · constructor
        · intro _ hdi
          rw [h]
          intro t ht
          exact hdi_new tN hdi hdN hrN t ht
        · intro id t t2 ht ht2
          rw [h] at ht2
          have hput : putTrip tN s.trips = s.trips ++ [tN] := by
            apply putTrip_append
            intro u hu hc
            have h2 := hids u hu
            rw [hc, hidN] at h2
            omega
          have ht2' : getTrip id (putTrip tN s.trips) = some t2 := ht2
          rw [hput, getTrip_append_left ht [tN]] at ht2'
          cases ht2'
          exact le_refl _
  | finishTrip id el ec =>
      rcases finishTrip_spec dist id el ec s with ⟨ht0, h⟩ | ⟨t0, t', ht0, hid, hveh', hst, hdist, hroute, hms, h⟩
      · exact ⟨fun _ hdi => by rw [h]; exact hdi,
          hmono_id _ (by rw [h])⟩
      · constructor
        · intro _ hdi
          rw [h]
          intro t ht
          exact hdi_keep t0 t' hdi (getTrip_mem ht0).1 hroute hdist t ht
        · exact hmono_put _ t0 t' 0 (le_refl 0) (getTrip_mem ht0).1 hid
            (by rw [hdist]; ring) (by rw [h])
  | syncOp d =>
      refine ⟨fun hop _ => absurd rfl (hop d), ?_⟩
      have happ : applyOp dist (.syncOp d) s = syncDevice d s := rfl
      rw [happ]
      rcases syncDevice_spec d s with ⟨v, hv, hbody⟩ | ⟨hv, hbody⟩
      · rcases hbody with ⟨hc, h⟩ | ⟨hc, trips', htr, h⟩
        · exact hmono_id _ (by rw [h])
        · rcases htr with ⟨hat, htr⟩ | ⟨ta, t', hat, htr, hid, hveh', hst, hroute, hdist, hms, hec⟩
          · subst htr
            exact hmono_id _ (by rw [h])
          · subst htr
            exact hmono_put _ ta t' 0 (le_refl 0) (getActiveTrip_mem hat).1 hid
              (by rw [hdist]; ring) (by rw [h])
      · rcases hbody with ⟨hc, h⟩ | ⟨hc, trips', htr, h⟩
        · exact hmono_id _ (by rw [h])
        · rcases htr with ⟨hat, htr⟩ | ⟨ta, t', hat, htr, hid, hveh', hst, hroute, hdist, hms, hec⟩
          · subst htr
            exact hmono_id _ (by rw [h])
          · subst htr
            exact hmono_put _ ta t' 0 (le_refl 0) (getActiveTrip_mem hat).1 hid
              (by rw [hdist]; ring) (by rw [h])

/-- Claim C1 witness: the corrected statement evaluated at the concrete
reconciler step of the mixed-path scenario with the stand-in metric. -/
theorem claim_C1_distance_accumulation_witness :
    ((∀ d, Op.syncOp deviceOne ≠ Op.syncOp d) → DistInv demoDist scenarioMixedPre →
      DistInv demoDist (applyOp demoDist (.syncOp deviceOne) scenarioMixedPre)) ∧
    (∀ id t t2, getTrip id scenarioMixedPre.trips = some t →
      getTrip id (applyOp demoDist (.syncOp deviceOne) scenarioMixedPre).trips = some t2 →
      t.distance ≤ t2.distance) :=
  claim_C1_distance_accumulation demoDist (Op.syncOp deviceOne) scenarioMixedPre
    (by unfold WFState; decide) (fun a b c e => add_nonneg (abs_nonneg _) (abs_nonneg _))

unseal Rat.add Rat.mul Rat.inv Rat.sub Rat.ofScientific in
/-- Claim C5 (counterexample): on the same pre-state (vehicle with an
active one-point-route trip), the reconciler sync of `deviceOne` and the
corresponding direct device push produce different results: the direct
path adds 2 to the trip's distance and emits one broadcast, the sync
path leaves distance at 0 and emits nothing (and stamps the route point
with the device-reported time, 99, instead of arrival time). The store
(CurrentState/history) update is identical. -/
theorem claim_C5_sync_vs_direct_cex :
    Option.map Trip.distance
      (getTrip 8 (syncDevice deviceOne scenarioMixedPre).trips) = some 0 ∧
    Option.map Trip.distance
      (getTrip 8 (applyOp demoDist
        (.ingestLoc (rawOfDevice deviceOne 7)) scenarioMixedPre).trips) = some 2 ∧
    (syncDevice deviceOne scenarioMixedPre).broadcasts.length = 1 ∧
    (applyOp demoDist (.ingestLoc (rawOfDevice deviceOne 7))
      scenarioMixedPre).broadcasts.length = 2 ∧
    Option.map (fun t => t.route.map RoutePoint.timestamp)
      (getTrip 8 (syncDevice deviceOne scenarioMixedPre).trips) = some [1, 99] ∧
    (syncDevice deviceOne scenarioMixedPre).locs =
      (applyOp demoDist (.ingestLoc (rawOfDevice deviceOne 7)) scenarioMixedPre).locs := by
  decide

/-- Claim C5 (corrected): for every device record with truthy (nonzero)
coordinates whose vehicle exists, the reconciler sync performs exactly
the same Vehicle State Store update as the corresponding direct device
push (same CurrentState overwrite, same appended history record, same
fresh-id and clock usage), and its active-session update appends the same
coordinates with the same `maxSpeed` and `endCoords` — but it does not
increment the session's `distance`, it stamps the route point with the
device-reported `dt_tracker` time instead of arrival time, and it emits
no broadcast, whereas the direct path adds the incremental distance, uses
arrival time, and broadcasts a `location` notification. -/
theorem claim_C5_sync_vs_direct (dist : ℚ → ℚ → ℚ → ℚ → ℚ) (s : ServerState)
    (d : GpsDevice) (v : Vehicle)
    (hv : s.vehicles.find? (fun u => decide (u.plate = d.deviceId)) = some v)
    (hlat : d.lat ≠ 0) (hlng : d.lng ≠ 0) :
    ∃ loc s', postObdLocation dist (rawOfDevice d v.id) s = .ok (loc, s') ∧
      (syncDevice d s).locs = s'.locs ∧
      (syncDevice d s).obd = s'.obd ∧
      (syncDevice d s).vehicles = s'.vehicles ∧
      (syncDevice d s).nextId = s'.nextId ∧
      (syncDevice d s).now = s'.now ∧
      (syncDevice d s).broadcasts = s.broadcasts ∧
      s'.broadcasts = s.broadcasts ++
        [.location ⟨v.id, d.lat, d.lng, d.speed, d.angle, s.now⟩] ∧
      (getActiveTrip v.id s.trips = none →
        (syncDevice d s).trips = s.trips ∧ s'.trips = s.trips) ∧
      (∀ ta, getActiveTrip v.id s.trips = some ta →
        (syncDevice d s).trips = putTrip { ta with
            route := ta.route ++ [⟨d.lat, d.lng, d.dtTracker.getD s.now⟩],
            maxSpeed := max ta.maxSpeed d.speed,
            endCoords := some ⟨d.lat, d.lng⟩ } s.trips ∧
        s'.trips = putTrip { ta with
            route := ta.route ++ [⟨d.lat, d.lng, s.now⟩],
            distance := ta.distance +
              (match ta.route.getLast? with
                | none => 0
                | some p => dist p.lat p.lng d.lat d.lng),
            maxSpeed := max ta.maxSpeed d.speed,
            endCoords := some ⟨d.lat, d.lng⟩ } s.trips) := by
  have hc : d.lat ≠ 0 ∧ d.lng ≠ 0 := ⟨hlat, hlng⟩
  have hparse : parseInsertVehicleLocation (rawOfDevice d v.id) = .ok
      ⟨v.id, none, d.lat, d.lng, some d.speed, some d.angle, some 0, some 5⟩ := rfl
  cases hat : getActiveTrip v.id s.trips with
  | none =>
      have hat' : getActiveTrip v.id (createVehicleLocation
          ⟨v.id, none, d.lat, d.lng, some d.speed, some d.angle, some 0, some 5⟩
          s).2.trips = none := hat
      have hsync : syncDevice d s = { s with
          locs := mapSet (mapSet s.locs (.current v.id)
            ⟨s.nextId, v.id, none, d.lat, d.lng, d.speed, d.angle, 0, 5, s.now⟩)
            (.byId s.nextId)
            ⟨s.nextId, v.id, none, d.lat, d.lng, d.speed, d.angle, 0, 5, s.now⟩
          nextId := s.nextId + 1
          now := s.now + 1 } := by
        unfold syncDevice
        rw [hv]
        dsimp only
        rw [if_pos hc, hat']
        rfl
      have hdir : postObdLocation dist (rawOfDevice d v.id) s = .ok
          (⟨s.nextId, v.id, none, d.lat, d.lng, d.speed, d.angle, 0, 5, s.now⟩,
            { s with
                locs := mapSet (mapSet s.locs (.current v.id)
                  ⟨s.nextId, v.id, none, d.lat, d.lng, d.speed, d.angle, 0, 5, s.now⟩)
                  (.byId s.nextId)
                  ⟨s.nextId, v.id, none, d.lat, d.lng, d.speed, d.angle, 0, 5, s.now⟩
                broadcasts := s.broadcasts ++
                  [.location ⟨v.id, d.lat, d.lng, d.speed, d.angle, s.now⟩]
                nextId := s.nextId + 1
                now := s.now + 1 }) := by
        unfold postObdLocation
        rw [hparse]
        dsimp only
        rw [show getActiveTrip (createVehicleLocation
            ⟨v.id, none, d.lat, d.lng, some d.speed, some d.angle, some 0, some 5⟩
            s).1.vehicleId (createVehicleLocation
            ⟨v.id, none, d.lat, d.lng, some d.speed, some d.angle, some 0, some 5⟩
            s).2.trips = none from hat]
        rfl
      refine ⟨_, _, hdir, ?_, ?_, ?_, ?_, ?_, ?_, ?_, ?_, ?_⟩
      · rw [hsync]
      · rw [hsync]
      · rw [hsync]
      · rw [hsync]
      · rw [hsync]
      · rw [hsync]
      · rfl
      · exact fun _ => ⟨by rw [hsync], rfl⟩
      · intro ta h
        exact absurd h (by simp)
  | some ta =>
      have hat' : getActiveTrip v.id (createVehicleLocation
          ⟨v.id, none, d.lat, d.lng, some d.speed, some d.angle, some 0, some 5⟩
          s).2.trips = some ta := hat
      have hsync : syncDevice d s = { s with
          trips := putTrip { ta with
              route := ta.route ++ [⟨d.lat, d.lng, d.dtTracker.getD s.now⟩],
              maxSpeed := max ta.maxSpeed d.speed,
              endCoords := some ⟨d.lat, d.lng⟩ } s.trips
          locs := mapSet (mapSet s.locs (.current v.id)
            ⟨s.nextId, v.id, none, d.lat, d.lng, d.speed, d.angle, 0, 5, s.now⟩)
            (.byId s.nextId)
            ⟨s.nextId, v.id, none, d.lat, d.lng, d.speed, d.angle, 0, 5, s.now⟩
          nextId := s.nextId + 1
          now := s.now + 1 } := by
        unfold syncDevice
        rw [hv]
        dsimp only
        rw [if_pos hc, hat']
        rfl
      have hdir : postObdLocation dist (rawOfDevice d v.id) s = .ok
          (⟨s.nextId, v.id, none, d.lat, d.lng, d.speed, d.angle, 0, 5, s.now⟩,
            { s with
                trips := putTrip { ta with
                    route := ta.route ++ [⟨d.lat, d.lng, s.now⟩],
                    distance := ta.distance +
                      (match ta.route.getLast? with
                        | none => 0
                        | some p => dist p.lat p.lng d.lat d.lng),
                    maxSpeed := max ta.maxSpeed d.speed,
                    endCoords := some ⟨d.lat, d.lng⟩ } s.trips
                locs := mapSet (mapSet s.locs (.current v.id)
                  ⟨s.nextId, v.id, none, d.lat, d.lng, d.speed, d.angle, 0, 5, s.now⟩)
                  (.byId s.nextId)
                  ⟨s.nextId, v.id, none, d.lat, d.lng, d.speed, d.angle, 0, 5, s.now⟩
                broadcasts := s.broadcasts ++
                  [.location ⟨v.id, d.lat, d.lng, d.speed, d.angle, s.now⟩]
                nextId := s.nextId + 1
                now := s.now + 1 }) := by
        unfold postObdLocation
        rw [hparse]
        dsimp only
        rw [show getActiveTrip (createVehicleLocation
            ⟨v.id, none, d.lat, d.lng, some d.speed, some d.angle, some 0, some 5⟩
            s).1.vehicleId (createVehicleLocation
            ⟨v.id, none, d.lat, d.lng, some d.speed, some d.angle, some 0, some 5⟩
            s).2.trips = some ta from hat]
        rfl
      refine ⟨_, _, hdir, ?_, ?_, ?_, ?_, ?_, ?_, ?_, ?_, ?_⟩
      · rw [hsync]
      · rw [hsync]
      · rw [hsync]
      · rw [hsync]
      · rw [hsync]
      · rw [hsync]
      · rfl
      · intro h
        exact absurd h (by simp)
      · intro ta0 h
        have hta : ta0 = ta := by
          injection h with h2
          exact h2.symm
        subst hta
        exact ⟨by rw [hsync], rfl⟩

/-- Claim C5 witness: the corrected comparison evaluated on the concrete
mixed-path pre-state and device. -/
theorem claim_C5_sync_vs_direct_witness :
    ∃ loc s', postObdLocation demoDist (rawOfDevice deviceOne vehicleOne.id)
        scenarioMixedPre = .ok (loc, s') ∧
      (syncDevice deviceOne scenarioMixedPre).locs = s'.locs ∧
      (syncDevice deviceOne scenarioMixedPre).obd = s'.obd ∧
      (syncDevice deviceOne scenarioMixedPre).vehicles = s'.vehicles ∧
      (syncDevice deviceOne scenarioMixedPre).nextId = s'.nextId ∧
      (syncDevice deviceOne scenarioMixedPre).now = s'.now ∧
      (syncDevice deviceOne scenarioMixedPre).broadcasts = scenarioMixedPre.broadcasts ∧
      s'.broadcasts = scenarioMixedPre.broadcasts ++
        [.location ⟨vehicleOne.id, deviceOne.lat, deviceOne.lng, deviceOne.speed,
          deviceOne.angle, scenarioMixedPre.now⟩] ∧
      (getActiveTrip vehicleOne.id scenarioMixedPre.trips = none →
        (syncDevice deviceOne scenarioMixedPre).trips = scenarioMixedPre.trips ∧
        s'.trips = scenarioMixedPre.trips) ∧
      (∀ ta, getActiveTrip vehicleOne.id scenarioMixedPre.trips = some ta →
        (syncDevice deviceOne scenarioMixedPre).trips = putTrip { ta with
            route := ta.route ++ [⟨deviceOne.lat, deviceOne.lng,
              deviceOne.dtTracker.getD scenarioMixedPre.now⟩],
            maxSpeed := max ta.maxSpeed deviceOne.speed,
            endCoords := some ⟨deviceOne.lat, deviceOne.lng⟩ } scenarioMixedPre.trips ∧
        s'.trips = putTrip { ta with
            route := ta.route ++ [⟨deviceOne.lat, deviceOne.lng, scenarioMixedPre.now⟩],
            distance := ta.distance +
              (match ta.route.getLast? with
                | none => 0
                | some p => demoDist p.lat p.lng deviceOne.lat deviceOne.lng),
            maxSpeed := max ta.maxSpeed deviceOne.speed,
            endCoords := some ⟨deviceOne.lat, deviceOne.lng⟩ } scenarioMixedPre.trips) :=
  claim_C5_sync_vs_direct demoDist scenarioMixedPre deviceOne vehicleOne
    (by decide) (by decide) (by decide)

/-- Claim C6: at most one active trip per vehicle is an invariant of every
operation trace (ingest, trip start/finish, reconciler sync), and starting
a second trip for a vehicle that already has an active one yields exactly
one active session, a conflict error ("Vehicle already has an active
trip"), and no mutation by the failed call. -/
theorem claim_C6_one_active_trip (dist : ℚ → ℚ → ℚ → ℚ → ℚ) (s : ServerState)
    (hwf : WFState s) (hone : ∀ w, activeCount w s.trips ≤ 1) :
    (∀ ops w, activeCount w (runOps dist ops s).trips ≤ 1) ∧
    (∀ v dId sl sc, getActiveTrip v s.trips = none →
      ∃ t1 s1, postTrips v dId sl sc s = .ok (t1, s1) ∧
        activeCount v s1.trips = 1 ∧
        ∀ dId2 sl2 sc2,
          postTrips v dId2 sl2 sc2 s1 = .error "Vehicle already has an active trip" ∧
          applyOp dist (.startTrip v dId2 sl2 sc2) s1 = s1) := by
  constructor
  · intro ops w
    exact (traceWF dist ops s hwf hone).2 w
  · intro v dId sl sc hat
    have h1 : postTrips v dId sl sc s = .ok
        (⟨s.nextId, v, dId, sl, none, sc, none, 0, 0, 0, 0, [], s.now, none, .active⟩,
          { s with
              trips := putTrip ⟨s.nextId, v, dId, sl, none, sc, none, 0, 0, 0, 0, [],
                s.now, none, .active⟩ s.trips
              nextId := s.nextId + 1
              now := s.now + 1 }) := by
      unfold postTrips
      rw [hat]
    have hput : putTrip (⟨s.nextId, v, dId, sl, none, sc, none, 0, 0, 0, 0, [],
        s.now, none, .active⟩ : Trip) s.trips = s.trips ++
          [⟨s.nextId, v, dId, sl, none, sc, none, 0, 0, 0, 0, [], s.now, none, .active⟩] := by
      apply putTrip_append
      intro u hu hc
      have := hwf.1 u hu
      have h3 : u.id = s.nextId := hc
      omega
    have hat2 : getActiveTrip v (s.trips ++
        [⟨s.nextId, v, dId, sl, none, sc, none, 0, 0, 0, 0, [], s.now, none, .active⟩]) =
        some ⟨s.nextId, v, dId, sl, none, sc, none, 0, 0, 0, 0, [], s.now, none, .active⟩ :=
      getActiveTrip_append_none hat _ ⟨rfl, rfl⟩
    refine ⟨_, _, h1, ?_, ?_⟩
    · show activeCount v (putTrip _ s.trips) = 1
      rw [hput, activeCount, List.countP_append]
      have h0 : activeCount v s.trips = 0 := activeCount_eq_zero_of_none hat
      rw [activeCount] at h0
      rw [h0]
      simp [List.countP_cons]
    · intro dId2 sl2 sc2
      constructor
      · show postTrips v dId2 sl2 sc2 ({ s with
            trips := putTrip ⟨s.nextId, v, dId, sl, none, sc, none, 0, 0, 0, 0, [],
              s.now, none, .active⟩ s.trips
            nextId := s.nextId + 1
            now := s.now + 1 }) = _
        unfold postTrips
        have hat3 : getActiveTrip v (putTrip (⟨s.nextId, v, dId, sl, none, sc, none,
            0, 0, 0, 0, [], s.now, none, .active⟩ : Trip) s.trips) =
            some ⟨s.nextId, v, dId, sl, none, sc, none, 0, 0, 0, 0, [], s.now, none, .active⟩ := by
          rw [hput]
          exact hat2
        rw [hat3]
      · have hat3 : getActiveTrip v (putTrip (⟨s.nextId, v, dId, sl, none, sc, none,
            0, 0, 0, 0, [], s.now, none, .active⟩ : Trip) s.trips) =
            some ⟨s.nextId, v, dId, sl, none, sc, none, 0, 0, 0, 0, [], s.now, none, .active⟩ := by
          rw [hput]
          exact hat2
        have happ : applyOp dist (.startTrip v dId2 sl2 sc2) ({ s with
            trips := putTrip ⟨s.nextId, v, dId, sl, none, sc, none, 0, 0, 0, 0, [],
              s.now, none, .active⟩ s.trips
            nextId := s.nextId + 1
            now := s.now + 1 }) =
            (match postTrips v dId2 sl2 sc2 ({ s with
              trips := putTrip ⟨s.nextId, v, dId, sl, none, sc, none, 0, 0, 0, 0, [],
                s.now, none, .active⟩ s.trips
              nextId := s.nextId + 1
              now := s.now + 1 }) with
              | .ok r => r.2
              | .error _ => ({ s with
                  trips := putTrip ⟨s.nextId, v, dId, sl, none, sc, none, 0, 0, 0, 0, [],
                    s.now, none, .active⟩ s.trips
                  nextId := s.nextId + 1
                  now := s.now + 1 })) := rfl
        rw [happ]
        have hpe : postTrips v dId2 sl2 sc2 ({ s with
            trips := putTrip ⟨s.nextId, v, dId, sl, none, sc, none, 0, 0, 0, 0, [],
              s.now, none, .active⟩ s.trips
            nextId := s.nextId + 1
            now := s.now + 1 }) = .error "Vehicle already has an active trip" := by
          unfold postTrips
          rw [hat3]
        rw [hpe]

/-- Claim C6 witness: the invariant and double-start behaviour at the
empty state. -/
theorem claim_C6_one_active_trip_witness :
    (∀ ops w, activeCount w (runOps demoDist ops emptyState).trips ≤ 1) ∧
    (∀ v dId sl sc, getActiveTrip v emptyState.trips = none →
      ∃ t1 s1, postTrips v dId sl sc emptyState = .ok (t1, s1) ∧
        activeCount v s1.trips = 1 ∧
        ∀ dId2 sl2 sc2,
          postTrips v dId2 sl2 sc2 s1 = .error "Vehicle already has an active trip" ∧
          applyOp demoDist (.startTrip v dId2 sl2 sc2) s1 = s1) :=
  claim_C6_one_active_trip demoDist emptyState (by unfold WFState; decide)
    (fun w => by simp [activeCount, emptyState])

/-- Claim C7: once a trip is completed, any subsequent device location
ingest leaves the completed record entirely unchanged (in particular its
route, distance and maxSpeed); and when the vehicle has no active trip,
the ingest touches no trip at all — the sample lands only in the vehicle
state store. -/
theorem claim_C7_completed_frame (dist : ℚ → ℚ → ℚ → ℚ → ℚ) (s : ServerState)
    (raw : RawLocationBody) (cid : ℕ) (tc : Trip)
    (hnd : (s.trips.map Trip.id).Nodup)
    (hc : getTrip cid s.trips = some tc) (hcomp : tc.status = TripStatus.completed) :
    getTrip cid (applyOp dist (.ingestLoc raw) s).trips = some tc ∧
    (∀ ins, parseInsertVehicleLocation raw = .ok ins →
      getActiveTrip ins.vehicleId s.trips = none →
      (applyOp dist (.ingestLoc raw) s).trips = s.trips) := by
  have happ : applyOp dist (.ingestLoc raw) s =
      (match postObdLocation dist raw s with
        | .ok r => r.2
        | .error _ => s) := rfl
  constructor
  · rw [happ]
    unfold postObdLocation
    cases hp : parseInsertVehicleLocation raw with
    | error e => exact hc
    | ok ins =>
        cases hat : getActiveTrip (createVehicleLocation ins s).1.vehicleId
            (createVehicleLocation ins s).2.trips with
        | none =>
            simp only [hat]
            exact hc
        | some ta =>
            simp only [hat]
            have hta := getActiveTrip_mem hat
            have hmemta : ta ∈ s.trips := hta.1
            have hne : ta.id ≠ cid := by
              intro hid
              have hmemtc : tc ∈ s.trips := (getTrip_mem hc).1
              have heq : ta = tc := eq_of_mem_of_id_eq hnd hmemta hmemtc
                (by rw [hid, (getTrip_mem hc).2])
              rw [heq, hcomp] at hta
              exact absurd hta.2.2 (by simp)
            refine Eq.trans (getTrip_putTrip_ne ?_ ((createVehicleLocation ins s).2.trips)) ?_
            · exact hne
            · exact hc
  · intro ins hp hnone
    rw [happ]
    unfold postObdLocation
    rw [hp]
    dsimp only
    have h2 : getActiveTrip (createVehicleLocation ins s).1.vehicleId
        (createVehicleLocation ins s).2.trips = none := hnone
    rw [h2]
    rfl

/-- Claim C7 witness: the frame property applied after a concrete
complete-then-ingest sequence. -/
theorem claim_C7_completed_frame_witness :
    getTrip 0 (applyOp demoDist (.ingestLoc rawRoute1) scenarioD).trips =
      some ⟨0, 5, none, "Start St", some "End One", ⟨1, 2⟩, some ⟨3, 4⟩,
        0, 0, 0, 0, [], 0, some 1, .completed⟩ ∧
    (∀ ins, parseInsertVehicleLocation rawRoute1 = .ok ins →
      getActiveTrip ins.vehicleId scenarioD.trips = none →
      (applyOp demoDist (.ingestLoc rawRoute1) scenarioD).trips = scenarioD.trips) :=
  claim_C7_completed_frame demoDist scenarioD rawRoute1 0
    ⟨0, 5, none, "Start St", some "End One", ⟨1, 2⟩, some ⟨3, 4⟩,
      0, 0, 0, 0, [], 0, some 1, .completed⟩
    (by decide) (by decide) rfl
